import Mathlib

/-!
# AeroStream — verification of the real-time session / room-broadcast subsystem

Shallow embedding of the chat backend:

* `src/backend/ws_manager.py` — `ConnectionManager` (the Room Registry /
  Broadcast Coordinator): `connect`, `disconnect`,
  `disconnect_user_from_all_rooms`, `broadcast`.
* `src/backend/dbManager.py` — `DatabaseManager` (the Durable Store); its
  `execute_query` catches `sqlite3.Error` and only prints it, so callers
  never observe a database write failure as an exception.
* `src/backend/messageService.py` — `MessageService.send_message`,
  `MessageService.get_room_messages`.
* `src/backend/backend.py` — the `/send_message` route and the
  `websocket_endpoint` handler.

Python dictionaries are modelled as association lists (first binding wins on
lookup), Python sets as duplicate-free lists in insertion order, and
websockets as natural-number handles.  SQLite's `ORDER BY` is modelled as a
stable sort on the scan (insertion) order; SQLite itself leaves the relative
order of equal keys unspecified, the stable choice matches the usual
behaviour of the scan of an append-only table.
-/

namespace AeroStream

/-! ## Python dict / set primitives -/

/-- `d.get(k)`: first binding for `k`, if any. -/
def dget {α β : Type} [DecidableEq α] (d : List (α × β)) (k : α) : Option β :=
  match d with
  | [] => none
  | (k', v) :: rest => if k = k' then some v else dget rest k

/-- `d[k] = v`: replace the first binding for `k`, or append a new one. -/
def dset {α β : Type} [DecidableEq α] (d : List (α × β)) (k : α) (v : β) :
    List (α × β) :=
  match d with
  | [] => [(k, v)]
  | (k', v') :: rest => if k = k' then (k, v) :: rest else (k', v') :: dset rest k v

/-- `del d[k]`: remove every binding for `k`. -/
def ddel {α β : Type} [DecidableEq α] (d : List (α × β)) (k : α) : List (α × β) :=
  match d with
  | [] => []
  | (k', v') :: rest => if k = k' then ddel rest k else (k', v') :: ddel rest k

/-- `s.add(x)` on a Python set. -/
def setAdd (s : List Nat) (x : Nat) : List Nat :=
  if x ∈ s then s else s ++ [x]

/-- `s.discard(x)` on a Python set. -/
def setDiscard (s : List Nat) (x : Nat) : List Nat :=
  s.filter (fun y => y ≠ x)

/-! ## Room Registry (`ws_manager.py`, class `ConnectionManager`)

A websocket is a `Nat` handle.  The three fields mirror the constructor
(`ws_manager.py:6-15`): `active_rooms : {room_name: set of websockets}`,
`user_connections : {room_name: {username: websocket}}`,
`socket_to_user : {websocket: (room_name, username)}`. -/

structure Registry where
  activeRooms : List (String × List Nat)
  userConnections : List (String × List (String × Nat))
  socketToUser : List (Nat × String × String)
  deriving DecidableEq, Repr

/-- `ConnectionManager()`: all three maps start empty. -/
def Registry.init : Registry := ⟨[], [], []⟩

/-- The set of websockets active in `room` (`active_rooms.get(room, set())`). -/
def Registry.activeList (st : Registry) (room : String) : List Nat :=
  (dget st.activeRooms room).getD []

/-- The per-room user map (`user_connections.get(room, {})`). -/
def Registry.userMap (st : Registry) (room : String) : List (String × Nat) :=
  (dget st.userConnections room).getD []

/-- Lines 22-25 of `ws_manager.py`: initialize the room's structures if they
do not exist yet (insert an empty set / empty dict under the room key). -/
def Registry.ensureRoom (st : Registry) (room_name : String) : Registry :=
  { st with
    activeRooms :=
      if (dget st.activeRooms room_name).isSome then st.activeRooms
      else dset st.activeRooms room_name [],
    userConnections :=
      if (dget st.userConnections room_name).isSome then st.userConnections
      else dset st.userConnections room_name [] }

/-- Lines 41-44 of `ws_manager.py`: drop the stale entry —
`active_rooms[room].discard(old_ws)`, `del socket_to_user[old_ws]` (guarded),
`del user_connections[room][username]`. -/
def Registry.evictEntry (st : Registry) (room_name username : String)
    (old_ws : Nat) : Registry :=
  { activeRooms :=
      dset st.activeRooms room_name (setDiscard (st.activeList room_name) old_ws),
    userConnections :=
      dset st.userConnections room_name (ddel (st.userMap room_name) username),
    socketToUser := ddel st.socketToUser old_ws }

/-- Lines 47-49 of `ws_manager.py`: `active_rooms[room].add(ws)`,
`user_connections[room][username] = ws`, `socket_to_user[ws] = (room,
username)`. -/
def Registry.addEntry (st : Registry) (room_name username : String) (ws : Nat) :
    Registry :=
  { activeRooms :=
      dset st.activeRooms room_name (setAdd (st.activeList room_name) ws),
    userConnections :=
      dset st.userConnections room_name (dset (st.userMap room_name) username ws),
    socketToUser := dset st.socketToUser ws (room_name, username) }

/-- `ConnectionManager.connect` (`ws_manager.py:17-51`).

`probeOk` is the outcome of the liveness probe `old_ws.send_json({"type":
"ping"})` at line 35 (`true` = the send succeeded).  When the probe succeeds
the source raises `ConnectionRefusedError` at line 37 — but that `raise`
sits inside the same `try` whose `except Exception` (line 38) catches every
`Exception`, `ConnectionRefusedError` included; so both probe outcomes fall
through to the cleanup at lines 41-44 and then register the new socket at
lines 47-49.  Consequently `connect` never propagates an exception and the
resulting state does not depend on `probeOk`. -/
def Registry.connect (st : Registry) (room_name username : String) (ws : Nat)
    (probeOk : Bool) : Registry :=
  match dget ((st.ensureRoom room_name).userMap room_name) username with
  | none => (st.ensureRoom room_name).addEntry room_name username ws
  | some old_ws =>
      -- both probe outcomes land in the `except` branch (see the docstring)
      (if probeOk then (st.ensureRoom room_name).evictEntry room_name username old_ws
       else (st.ensureRoom room_name).evictEntry room_name username old_ws).addEntry
        room_name username ws

/-- Lines 56-59 of `ws_manager.py`: discard `ws` from the room's active set
and delete the room key when the set becomes empty. -/
def disconnectActive (a : List (String × List Nat)) (room_name : String)
    (ws : Nat) : List (String × List Nat) :=
  match dget a room_name with
  | none => a
  | some s =>
      let s' := setDiscard s ws
      if s' = [] then ddel a room_name
      else dset a room_name s'

/-- Lines 66-74 of `ws_manager.py`: remove `user_connections[room][username]`
if it maps to this very websocket, pruning the room key when its user dict
becomes empty.  Note the lookup uses the `room_name` argument, not the room
stored in `socket_to_user`. -/
def disconnectUser (uc : List (String × List (String × Nat)))
    (room_name username : String) (ws : Nat) :
    List (String × List (String × Nat)) :=
  match dget uc room_name with
  | none => uc
  | some d =>
      match dget d username with
      | none => uc
      | some w =>
          if w = ws then
            if ddel d username = [] then ddel uc room_name
            else dset uc room_name (ddel d username)
          else uc

/-- `ConnectionManager.disconnect` (`ws_manager.py:53-76`): the active-set
step (lines 56-59), then — when `socket_to_user` knows the socket — the
user-map step (lines 62-76) and the unconditional `del socket_to_user[ws]`. -/
def Registry.disconnect (st : Registry) (room_name : String) (ws : Nat) : Registry :=
  match dget st.socketToUser ws with
  | none => { st with activeRooms := disconnectActive st.activeRooms room_name ws }
  | some (_stored_room, username) =>
      { activeRooms := disconnectActive st.activeRooms room_name ws,
        userConnections := disconnectUser st.userConnections room_name username ws,
        socketToUser := ddel st.socketToUser ws }

/-- `ConnectionManager.disconnect_user_from_all_rooms` (`ws_manager.py:78-99`)
sends `force_disconnect` and closes the found sockets but mutates none of the
three maps — "Clean up will be handled by the disconnect method" (line 99). -/
def Registry.disconnectUserFromAllRooms (st : Registry) (_username : String) :
    Registry := st

/-- Line 159 of `ws_manager.py`:
`active_rooms.get(room_name, set()).discard(s)` — a no-op when the room key
is absent (the `.get` default set is discarded), and no empty-entry pruning
either way. -/
def removeActive (a : List (String × List Nat)) (room_name : String) (s : Nat) :
    List (String × List Nat) :=
  match dget a room_name with
  | none => a
  | some l => dset a room_name (setDiscard l s)

/-- Lines 162-165 of `ws_manager.py`: delete
`user_connections[room][username]` only when it still maps to `s`; no
empty-entry pruning. -/
def removeUserEntry (uc : List (String × List (String × Nat)))
    (room_name username : String) (s : Nat) :
    List (String × List (String × Nat)) :=
  match dget uc room_name with
  | none => uc
  | some d =>
      match dget d username with
      | none => uc
      | some w =>
          if w = s then dset uc room_name (ddel d username)
          else uc

/-- One iteration of the bad-socket cleanup loop in
`ConnectionManager.broadcast` (`ws_manager.py:158-166`).  Unlike
`disconnect`, it never prunes emptied room entries; line 166 deletes
`socket_to_user[s]` unconditionally. -/
def Registry.removeBadSocket (st : Registry) (room_name : String) (s : Nat) :
    Registry :=
  let active := removeActive st.activeRooms room_name s
  match dget st.socketToUser s with
  | none => { st with activeRooms := active }
  | some (_, username) =>
      { activeRooms := active,
        userConnections := removeUserEntry st.userConnections room_name username s,
        socketToUser := ddel st.socketToUser s }

/-- The cleanup loop at `ws_manager.py:157-166` over the `bad` list. -/
def Registry.cleanupBad (st : Registry) (room_name : String) (bad : List Nat) :
    Registry :=
  bad.foldl (fun acc s => acc.removeBadSocket room_name s) st

/-- Result of one `ConnectionManager.broadcast` call. -/
structure BroadcastResult where
  /-- The filtered snapshot, i.e. every socket the send loop attempts. -/
  attempted : List Nat
  /-- Sockets whose `send_json` succeeded. -/
  delivered : List Nat
  /-- Sockets whose `send_json` raised (the `bad` list). -/
  failed : List Nat
  /-- Registry state after the bad-socket cleanup. -/
  state : Registry
  deriving DecidableEq, Repr

/-- The exclusion filter of `ConnectionManager.broadcast`
(`ws_manager.py:126-134`): skip the excluded socket, and skip any socket
whose `socket_to_user` entry names the excluded user. -/
def broadcastKeep (st : Registry) (excludeSocket : Option Nat)
    (excludeUser : Option String) (s : Nat) : Bool :=
  (match excludeSocket with
   | some ex => s != ex
   | none => true) &&
  (match excludeUser with
   | some xu =>
       (match dget st.socketToUser s with
        | some (_, username) => username != xu
        | none => true)
   | none => true)

/-- `ConnectionManager.broadcast` (`ws_manager.py:112-166`).

`fails ws = true` models `ws.send_json(data)` raising.  The loop at lines
140-152 catches each send failure and keeps iterating, so `attempted` is the
whole filtered snapshot; the `bad` sockets are cleaned up afterwards. -/
def Registry.broadcast (st : Registry) (room_name : String)
    (excludeSocket : Option Nat) (excludeUser : Option String)
    (fails : Nat → Bool) : BroadcastResult :=
  -- lines 121-123: snapshot under the lock
  let sockets := st.activeList room_name
  -- lines 126-134: filter out excluded socket and/or user
  let filtered := sockets.filter (broadcastKeep st excludeSocket excludeUser)
  -- lines 139-152: send loop, collecting failures without aborting
  let bad := filtered.filter (fun s => fails s)
  let delivered := filtered.filter (fun s => !fails s)
  -- lines 154-166: cleanup bad sockets
  let st' := if bad.isEmpty then st else st.cleanupBad room_name bad
  ⟨filtered, delivered, bad, st'⟩

/-! ## Durable Store (`dbManager.py`) and `MessageService` (`messageService.py`)

The SQLite tables from `DatabaseManager._create_tables` (`dbManager.py:47-85`):
`users(id AUTOINCREMENT, username, password)`,
`rooms(id AUTOINCREMENT, room_key, ...)`,
`messages(id AUTOINCREMENT, user_id, room_id, content,
timestamp DEFAULT CURRENT_TIMESTAMP)`.  Timestamps are naturals supplied by
the caller (the wall clock of `CURRENT_TIMESTAMP`). -/

structure UserRow where
  id : Nat
  username : String
  deriving DecidableEq, Repr

structure RoomRow where
  id : Nat
  roomKey : String
  deriving DecidableEq, Repr

structure MsgRow where
  id : Nat
  userId : Nat
  roomId : Nat
  content : String
  timestamp : Nat
  deriving DecidableEq, Repr

/-- One row of the history SELECT in `MessageService.get_room_messages`
(`messageService.py:43-54`): `m.id, m.content, m.timestamp, m.user_id,
u.username`. -/
structure JoinedRow where
  id : Nat
  content : String
  timestamp : Nat
  userId : Nat
  username : String
  deriving DecidableEq, Repr

structure DB where
  users : List UserRow
  rooms : List RoomRow
  /-- `messages` rows in insertion (rowid) order. -/
  messages : List MsgRow
  /-- Next AUTOINCREMENT id for `messages`. -/
  nextMsgId : Nat
  deriving DecidableEq, Repr

/-- `INSERT INTO messages (user_id, room_id, content) VALUES (?, ?, ?)` run
through `DatabaseManager.execute_query` (`dbManager.py:99-111`).
`writeFails = true` models sqlite raising `sqlite3.Error` during the write;
`execute_query` catches it at lines 110-111 and only prints `"Error executing
query"`, so the caller observes no exception in either case. -/
def DB.insertMessage (db : DB) (uid rid : Nat) (content : String) (now : Nat)
    (writeFails : Bool) : DB :=
  if writeFails then db
  else { db with
          messages := db.messages ++ [⟨db.nextMsgId, uid, rid, content, now⟩],
          nextMsgId := db.nextMsgId + 1 }

/-- `MessageService.send_message` (`messageService.py:8-28`).  Its
`except Exception` branch is unreachable for database failures because
`execute_query` swallows them (see `DB.insertMessage`), so the reported
success flag is always `true`. -/
def DB.sendMessage (db : DB) (uid rid : Nat) (content : String) (now : Nat)
    (writeFails : Bool) : DB × Bool :=
  (db.insertMessage uid rid content now writeFails, true)

/-- The `messages` rows of one room, in insertion order
(`WHERE m.room_id = ?` over the scan). -/
def DB.roomRows (db : DB) (rid : Nat) : List MsgRow :=
  db.messages.filter (fun m => m.roomId == rid)

/-- `JOIN users u ON m.user_id = u.id` applied to one room's rows: a message
whose author has no `users` row is dropped by the inner join. -/
def DB.joinedRows (db : DB) (rid : Nat) : List JoinedRow :=
  (db.roomRows rid).filterMap (fun m =>
    (db.users.find? (fun u => u.id == m.userId)).map
      (fun u => ⟨m.id, m.content, m.timestamp, m.userId, u.username⟩))

/-- Insert `m` after every row whose timestamp is `≤ m.timestamp`
(stability: a later row never jumps before an equal-timestamp earlier row). -/
def insertByTs (m : JoinedRow) : List JoinedRow → List JoinedRow
  | [] => [m]
  | x :: xs => if x.timestamp ≤ m.timestamp then x :: insertByTs m xs
               else m :: x :: xs

/-- `ORDER BY m.timestamp ASC`, modelled as a stable insertion sort over the
scan order (SQLite leaves the relative order of equal keys unspecified; the
stable choice matches the scan of an append-only table). -/
def sortByTs (l : List JoinedRow) : List JoinedRow :=
  l.foldl (fun acc m => insertByTs m acc) []

/-- Python truthiness of the `limit` argument: `if limit:` at
`messageService.py:56` is `False` for both `None` and `0`. -/
def pyTruthyLimit : Option Nat → Bool
  | none => false
  | some l => l != 0

/-- `MessageService.get_room_messages` (`messageService.py:30-98`).  With a
truthy limit it runs `SELECT COUNT(*) FROM messages WHERE room_id = ?`, sets
`offset = max(total_count - limit, 0)` and appends `LIMIT ? OFFSET ?` to the
ordered query; otherwise it returns every ordered row.  Both `fetch_all` and
its own `except` swallow errors, so the success flag is always `true` and we
return just the message list. -/
def DB.getRoomMessages (db : DB) (rid : Nat) (limit : Option Nat) :
    List JoinedRow :=
  let base := sortByTs (db.joinedRows rid)
  if pyTruthyLimit limit then
    let L := limit.getD 0
    let total := (db.roomRows rid).length
    (base.drop (total - L)).take L
  else base

/-- `RoomService.get_room_id` (`roomService.py:48-51`). -/
def DB.getRoomId (db : DB) (room_name : String) : Option Nat :=
  (db.rooms.find? (fun r => r.roomKey == room_name)).map (fun r => r.id)

/-- `RoomService.room_exists` (`roomService.py:6-9`). -/
def DB.roomExists (db : DB) (room_name : String) : Bool :=
  (db.getRoomId room_name).isSome

/-- `SELECT * FROM users WHERE username = ?` followed by taking `users[0]`
(`backend.py:145-150`). -/
def DB.findUser (db : DB) (username : String) : Option UserRow :=
  db.users.find? (fun u => u.username == username)

/-! ## Gateway (`backend.py`) -/

/-- Outbound events over the duplex channel (`backend.py` / spec §6). -/
inductive Out where
  | error (message : String)
  | authSuccess (username : String) (room : String)
  | messageHistory (data : List JoinedRow)
  | userJoined (username : String)
  | userLeft (username : String)
  | newMessage (data : JoinedRow)
  | pong
  deriving DecidableEq, Repr

/-- The first inbound frame of `websocket_endpoint`, as read by
`receive_json` (`backend.py:280`): its `"type"` field and, for auth frames,
the `"token"` field (`none` = key absent; `some ""` is falsy too). -/
structure AuthMsg where
  ty : String
  token : Option String
  deriving DecidableEq, Repr

/-- Outcome of the handshake checks at `backend.py:279-303`. -/
inductive AuthOutcome where
  | rejected (message : String)
  | accepted (user : UserRow)
  deriving DecidableEq, Repr

/-- The handshake checks of `websocket_endpoint` (`backend.py:279-303`):
type must be `"auth"`, the token must be present and truthy, the token must
decode to a subject (`tokenUser` models `jwt.decode` + `payload.get("sub")`)
naming an existing user, and the room must exist. -/
def authPhase (db : DB) (tokenUser : String → Option String)
    (room_name : String) (msg : AuthMsg) : AuthOutcome :=
  if msg.ty ≠ "auth" then .rejected "Authentication required"
  else
    match msg.token with
    | none => .rejected "Token required"
    | some t =>
        if t = "" then .rejected "Token required"
        else
          match tokenUser t with
          | none => .rejected "Invalid token"
          | some uname =>
              match db.findUser uname with
              | none => .rejected "Invalid token"
              | some user =>
                  if db.roomExists room_name then .accepted user
                  else .rejected "Room not found"

/-- Positional parameters of `ConnectionManager.connect` after `self`
(`ws_manager.py:17`). -/
def connectParams : List String := ["room_name", "user", "ws"]

/-- Positional arguments supplied at the call site
`await manager.connect(room_name, websocket)` (`backend.py:306`). -/
def connectCallArgs : Nat := 2

/-- Whether the `backend.py:306` call site supplies every required positional
parameter of `ConnectionManager.connect`.  It does not: the call binds
`room_name` and `user` and leaves `ws` missing, so evaluating the call raises
`TypeError`. -/
def connectCallSiteOk : Bool := connectCallArgs == connectParams.length

/-- Result of one run of `websocket_endpoint`. -/
structure WsResult where
  registry : Registry
  /-- Frames sent to this websocket after `accept`. -/
  sent : List Out
  /-- Broadcast calls issued, as (room, event) pairs. -/
  broadcasts : List (String × Out)
  closed : Bool
  deriving DecidableEq, Repr

/-- `websocket_endpoint` (`backend.py:273-381`).

On a rejected handshake (lines 281-303) the handler sends one error notice,
closes, and returns with `user` still `None`, so the `finally` block skips
cleanup and the registry is untouched.

On an accepted handshake, line 306 runs `await manager.connect(room_name,
websocket)`: it supplies `connectCallArgs = 2` positional arguments for the
`connectParams.length = 3` required parameters of
`ConnectionManager.connect`, so evaluating the call raises `TypeError`
before any registry mutation.  The `except Exception` at line 368 catches
it, and the `finally` block (lines 370-381) runs with `user` set: it calls
`manager.disconnect` and broadcasts `user_left`.  Lines 308-364
(auth_success, history, user_joined, receive loop) are unreachable.
`leaveFails` models send failures inside that final broadcast. -/
def websocketEndpoint (st : Registry) (db : DB)
    (tokenUser : String → Option String) (room_name : String) (ws : Nat)
    (firstMsg : AuthMsg) (leaveFails : Nat → Bool) : WsResult :=
  match authPhase db tokenUser room_name firstMsg with
  | .rejected e => ⟨st, [.error e], [], true⟩
  | .accepted user =>
      let st1 := st.disconnect room_name ws
      let br := st1.broadcast room_name none none leaveFails
      ⟨br.state, [], [(room_name, .userLeft user.username)], true⟩

/-- HTTP responses of the `/send_message` route. -/
inductive HttpResp where
  | ok (message : String)
  | httpError (status : Nat) (detail : String)
  deriving DecidableEq, Repr

/-- The `/send_message` route (`backend.py:216-237`): resolve the room, run
`MessageService.send_message`, and on reported success fetch the most recent
message (`limit=1`, then `[-1]`) and broadcast it as `new_message` to the
whole room (no exclusion). -/
def httpSendMessage (db : DB) (st : Registry) (user : UserRow)
    (room_name content : String) (now : Nat) (writeFails : Bool)
    (bFails : Nat → Bool) :
    DB × Registry × List (String × Out) × HttpResp :=
  match db.getRoomId room_name with
  | none => (db, st, [], .httpError 404 "Room not found")
  | some rid =>
      let res := db.sendMessage user.id rid content now writeFails
      if res.2 then
        match (res.1.getRoomMessages rid (some 1)).getLast? with
        | some latest =>
            let br := st.broadcast room_name none none bFails
            (res.1, br.state, [(room_name, .newMessage latest)],
             .ok "Message sent successfully")
        | none => (res.1, st, [], .ok "Message sent successfully")
      else (res.1, st, [], .httpError 500 "Failed to send message")

/-- Whitespace test for `str.strip()` (space, tab, newline, carriage
return — the whitespace characters relevant to chat input). -/
def isWsChar (c : Char) : Bool :=
  c = ' ' || c = '\t' || c = '\n' || c = '\r'

/-- Drop leading whitespace characters. -/
def dropLeadingWs : List Char → List Char
  | [] => []
  | c :: cs => if isWsChar c then dropLeadingWs cs else c :: cs

/-- Python's `str.strip()`: remove leading and trailing whitespace. -/
def pyStrip (s : String) : String :=
  String.mk ((dropLeadingWs (dropLeadingWs s.data).reverse).reverse)

/-- One inbound frame of the receive loop (`backend.py:334-360`). -/
inductive LoopMsg where
  | sendMsg (message : String)
  | ping
  | other (ty : String)
  deriving DecidableEq, Repr

/-- Result of one receive-loop iteration. -/
structure LoopResult where
  db : DB
  registry : Registry
  sent : List Out
  broadcasts : List (String × Out)
  deriving DecidableEq, Repr

/-- The body of the receive loop of `websocket_endpoint`
(`backend.py:336-360`), as written.  (As shipped this code is unreachable —
see `websocketEndpoint` — but it is the handler the claim about the loop
refers to.)  A `send_message` frame strips the content, no-ops when empty,
persists via `MessageService.send_message`, and on reported success fetches
the most recent message and broadcasts it; only a reported failure sends the
`"Failed to send message"` error notice to the sender. -/
def wsLoopBody (db : DB) (st : Registry) (user : UserRow)
    (room_name : String) (rid : Nat) (msg : LoopMsg) (now : Nat)
    (writeFails : Bool) (bFails : Nat → Bool) : LoopResult :=
  match msg with
  | .sendMsg m =>
      let content := pyStrip m
      if content = "" then ⟨db, st, [], []⟩
      else
        let res := db.sendMessage user.id rid content now writeFails
        if res.2 then
          match (res.1.getRoomMessages rid (some 1)).getLast? with
          | some latest =>
              let br := st.broadcast room_name none none bFails
              ⟨res.1, br.state, [], [(room_name, .newMessage latest)]⟩
          | none => ⟨res.1, st, [], []⟩
        else ⟨db, st, [.error "Failed to send message"], []⟩
  | .ping => ⟨db, st, [.pong], []⟩
  | .other _ => ⟨db, st, [], []⟩

/-- The join announcement at `backend.py:324-331`: `manager.broadcast` is
called with neither `exclude_socket` nor `exclude_user`, so the snapshot
still contains the joining socket itself. -/
def joinAnnounce (st : Registry) (room_name : String) (bFails : Nat → Bool) :
    BroadcastResult :=
  st.broadcast room_name none none bFails

/-- The cleanup path at `backend.py:370-381`: `manager.disconnect`, then the
`user_left` broadcast (no exclusion arguments; the leaver is absent from the
snapshot only because `disconnect` already removed it). -/
def leaveSequence (st : Registry) (room_name : String) (ws : Nat)
    (bFails : Nat → Bool) : Registry × BroadcastResult :=
  let st1 := st.disconnect room_name ws
  (st1, st1.broadcast room_name none none bFails)

/-! ## The registry consistency invariant and operation sequences -/

/-- Mutual consistency of the registry's three structures (spec §3, "Room
Registry entry" invariant): an active socket has a `socket_to_user` entry
pointing back at its room and at a username mapped to it; a
`user_connections` entry is active and registered in `socket_to_user`; a
`socket_to_user` entry is mirrored in both other structures. -/
def Inv (st : Registry) : Prop :=
  (∀ room ws, ws ∈ st.activeList room →
    ∃ u, dget st.socketToUser ws = some (room, u) ∧
      dget (st.userMap room) u = some ws) ∧
  (∀ room u ws, dget (st.userMap room) u = some ws →
    ws ∈ st.activeList room ∧ dget st.socketToUser ws = some (room, u)) ∧
  (∀ ws room u, dget st.socketToUser ws = some (room, u) →
    ws ∈ st.activeList room ∧ dget (st.userMap room) u = some ws)

/-- The registry-mutating operations of `ConnectionManager`.  A `broadcast`
op carries the list of sockets whose `send_json` raises. -/
inductive Op where
  | connect (room username : String) (ws : Nat) (probeOk : Bool)
  | disconnect (room : String) (ws : Nat)
  | disconnectUserAll (username : String)
  | broadcast (room : String) (excludeSocket : Option Nat)
      (excludeUser : Option String) (failList : List Nat)
  deriving DecidableEq, Repr

/-- Apply one operation to the registry. -/
def applyOp (st : Registry) : Op → Registry
  | .connect room u ws p => st.connect room u ws p
  | .disconnect room ws => st.disconnect room ws
  | .disconnectUserAll u => st.disconnectUserFromAllRooms u
  | .broadcast room exS exU fl =>
      (st.broadcast room exS exU (fun s => fl.contains s)).state

/-- Run a sequence of operations from a starting state. -/
def runOps (st : Registry) (ops : List Op) : Registry :=
  ops.foldl applyOp st

/-- Call discipline of the server: `connect` is only ever invoked on a
freshly accepted websocket (one not yet registered anywhere), and
`disconnect` is invoked with the same room name the socket was registered
under (`websocket_endpoint` passes its own `room_name` to both). -/
def wfOp (st : Registry) : Op → Bool
  | .connect _ _ ws _ => (dget st.socketToUser ws).isNone
  | .disconnect room ws =>
      match dget st.socketToUser ws with
      | none => true
      | some p => p.1 == room
  | .disconnectUserAll _ => true
  | .broadcast _ _ _ _ => true

/-- Well-formedness of a whole call sequence. -/
def wfOps (st : Registry) : List Op → Bool
  | [] => true
  | op :: rest => wfOp st op && wfOps (applyOp st op) rest

/-- `ORDER BY`-input sortedness: timestamps nondecreasing in scan order. -/
def tsSorted (l : List JoinedRow) : Prop :=
  l.Pairwise (fun a b => a.timestamp ≤ b.timestamp)

/-! ## Lemmas: dict and set primitives -/

theorem dget_dset_self {α β : Type} [DecidableEq α] (d : List (α × β)) (k : α) (v : β) :
    dget (dset d k v) k = some v := by
  induction d with
  | nil => simp [dget, dset]
  | cons hd tl ih =>
    obtain ⟨k', v'⟩ := hd
    by_cases h : k = k' <;> simp [dget, dset, h, ih]

theorem dget_dset_ne {α β : Type} [DecidableEq α] (d : List (α × β)) (k k' : α) (v : β)
    (h : k' ≠ k) : dget (dset d k v) k' = dget d k' := by
  induction d with
  | nil => simp [dget, dset, h]
  | cons hd tl ih =>
    obtain ⟨a, b⟩ := hd
    by_cases hk : k = a
    · subst hk
      simp [dget, dset, h]
    · by_cases hk' : k' = a <;> simp [dget, dset, hk, hk', ih]

theorem dget_ddel_self {α β : Type} [DecidableEq α] (d : List (α × β)) (k : α) :
    dget (ddel d k) k = none := by
  induction d with
  | nil => simp [ddel, dget]
  | cons hd tl ih =>
    obtain ⟨a, b⟩ := hd
    by_cases hk : k = a
    · subst hk
      simp [ddel, ih]
    · simp [dget, ddel, hk, ih]

theorem dget_ddel_ne {α β : Type} [DecidableEq α] (d : List (α × β)) (k k' : α)
    (h : k' ≠ k) : dget (ddel d k) k' = dget d k' := by
  induction d with
  | nil => simp [ddel, dget]
  | cons hd tl ih =>
    obtain ⟨a, b⟩ := hd
    by_cases hk : k = a
    · subst hk
      simp [dget, ddel, h, ih]
    · by_cases hk' : k' = a <;> simp [dget, ddel, hk, hk', ih]

/-- A lookup in `ddel d k` that succeeds would also succeed in `d`. -/
theorem dget_of_dget_ddel {α β : Type} [DecidableEq α] {d : List (α × β)} {k k' : α}
    {v : β} (h : dget (ddel d k) k' = some v) : dget d k' = some v := by
  by_cases hk : k' = k
  · subst hk
    rw [dget_ddel_self] at h
    exact absurd h (by simp)
  · rwa [dget_ddel_ne d k k' hk] at h

/-- Writing back the value already stored leaves the dict unchanged. -/
theorem dset_eq_self_of_dget {α β : Type} [DecidableEq α] (d : List (α × β)) (k : α)
    (v : β) (h : dget d k = some v) : dset d k v = d := by
  induction d with
  | nil => simp [dget] at h
  | cons hd tl ih =>
    obtain ⟨a, b⟩ := hd
    by_cases hk : k = a
    · subst hk
      simp [dget] at h
      simp [dset, h]
    · simp [dget, hk] at h
      simp [dset, hk, ih h]

@[simp] theorem mem_setAdd (s : List Nat) (x y : Nat) :
    y ∈ setAdd s x ↔ y ∈ s ∨ y = x := by
  by_cases h : x ∈ s
  · simp [setAdd, h]
    intro hy
    subst hy
    exact h
  · simp [setAdd, h, or_comm]

@[simp] theorem mem_setDiscard (s : List Nat) (x y : Nat) :
    y ∈ setDiscard s x ↔ y ∈ s ∧ y ≠ x := by
  simp [setDiscard]

theorem setDiscard_not_mem (s : List Nat) (x : Nat) : x ∉ setDiscard s x := by
  simp

theorem setDiscard_eq_self_of_not_mem (s : List Nat) (x : Nat) (h : x ∉ s) :
    setDiscard s x = s := by
  induction s with
  | nil => rfl
  | cons hd tl ih =>
    simp at h
    simp [setDiscard] at ih ⊢
    exact ⟨fun hx => h.1 hx.symm, ih h.2⟩

/-! ## Lemmas: registry operation lookups -/

theorem ensureRoom_activeList (st : Registry) (room r : String) :
    (st.ensureRoom room).activeList r = st.activeList r := by
  unfold Registry.ensureRoom Registry.activeList
  by_cases h : (dget st.activeRooms room).isSome
  · simp [h]
  · by_cases hr : r = room
    · subst hr
      simp only [Option.not_isSome_iff_eq_none] at h
      simp [h, dget_dset_self]
    · simp [h, dget_dset_ne _ _ _ _ hr]

theorem ensureRoom_userMap (st : Registry) (room r : String) :
    (st.ensureRoom room).userMap r = st.userMap r := by
  unfold Registry.ensureRoom Registry.userMap
  by_cases h : (dget st.userConnections room).isSome
  · simp [h]
  · by_cases hr : r = room
    · subst hr
      simp only [Option.not_isSome_iff_eq_none] at h
      simp [h, dget_dset_self]
    · simp [h, dget_dset_ne _ _ _ _ hr]

theorem ensureRoom_socketToUser (st : Registry) (room : String) :
    (st.ensureRoom room).socketToUser = st.socketToUser := rfl

theorem addEntry_activeList_self (st : Registry) (room u : String) (ws : Nat) :
    (st.addEntry room u ws).activeList room = setAdd (st.activeList room) ws := by
  simp [Registry.addEntry, Registry.activeList, dget_dset_self]

theorem addEntry_activeList_ne (st : Registry) (room u : String) (ws : Nat)
    {r : String} (h : r ≠ room) :
    (st.addEntry room u ws).activeList r = st.activeList r := by
  simp [Registry.addEntry, Registry.activeList, dget_dset_ne _ _ _ _ h]

theorem addEntry_userMap_self (st : Registry) (room u : String) (ws : Nat) :
    (st.addEntry room u ws).userMap room = dset (st.userMap room) u ws := by
  simp [Registry.addEntry, Registry.userMap, dget_dset_self]

theorem addEntry_userMap_ne (st : Registry) (room u : String) (ws : Nat)
    {r : String} (h : r ≠ room) :
    (st.addEntry room u ws).userMap r = st.userMap r := by
  simp [Registry.addEntry, Registry.userMap, dget_dset_ne _ _ _ _ h]

theorem addEntry_s2u_self (st : Registry) (room u : String) (ws : Nat) :
    dget (st.addEntry room u ws).socketToUser ws = some (room, u) := by
  simp [Registry.addEntry, dget_dset_self]

theorem addEntry_s2u_ne (st : Registry) (room u : String) (ws : Nat)
    {w : Nat} (h : w ≠ ws) :
    dget (st.addEntry room u ws).socketToUser w = dget st.socketToUser w := by
  simp [Registry.addEntry, dget_dset_ne _ _ _ _ h]

theorem evictEntry_activeList_self (st : Registry) (room u : String) (old : Nat) :
    (st.evictEntry room u old).activeList room =
      setDiscard (st.activeList room) old := by
  simp [Registry.evictEntry, Registry.activeList, dget_dset_self]

theorem evictEntry_activeList_ne (st : Registry) (room u : String) (old : Nat)
    {r : String} (h : r ≠ room) :
    (st.evictEntry room u old).activeList r = st.activeList r := by
  simp [Registry.evictEntry, Registry.activeList, dget_dset_ne _ _ _ _ h]

theorem evictEntry_userMap_self (st : Registry) (room u : String) (old : Nat) :
    (st.evictEntry room u old).userMap room = ddel (st.userMap room) u := by
  simp [Registry.evictEntry, Registry.userMap, dget_dset_self]

theorem evictEntry_userMap_ne (st : Registry) (room u : String) (old : Nat)
    {r : String} (h : r ≠ room) :
    (st.evictEntry room u old).userMap r = st.userMap r := by
  simp [Registry.evictEntry, Registry.userMap, dget_dset_ne _ _ _ _ h]

theorem evictEntry_s2u_self (st : Registry) (room u : String) (old : Nat) :
    dget (st.evictEntry room u old).socketToUser old = none := by
  simp [Registry.evictEntry, dget_ddel_self]

theorem evictEntry_s2u_ne (st : Registry) (room u : String) (old : Nat)
    {w : Nat} (h : w ≠ old) :
    dget (st.evictEntry room u old).socketToUser w = dget st.socketToUser w := by
  simp [Registry.evictEntry, dget_ddel_ne _ _ _ h]

theorem disconnectActive_dget_self (a : List (String × List Nat))
    (room : String) (ws : Nat) :
    (dget (disconnectActive a room ws) room).getD [] =
      setDiscard ((dget a room).getD []) ws := by
  unfold disconnectActive
  cases h : dget a room with
  | none => simp [h, setDiscard]
  | some s =>
      by_cases he : setDiscard s ws = []
      · simp [he, dget_ddel_self]
      · simp [he, dget_dset_self]

theorem disconnectActive_dget_ne (a : List (String × List Nat))
    (room : String) (ws : Nat) {r : String} (h : r ≠ room) :
    dget (disconnectActive a room ws) r = dget a r := by
  unfold disconnectActive
  cases hm : dget a room with
  | none => rfl
  | some s =>
      by_cases he : setDiscard s ws = []
      · simp [he, dget_ddel_ne _ _ _ h]
      · simp [he, dget_dset_ne _ _ _ _ h]

theorem disconnectActive_idem (a : List (String × List Nat)) (room : String)
    (ws : Nat) :
    disconnectActive (disconnectActive a room ws) room ws =
      disconnectActive a room ws := by
  cases hm : dget a room with
  | none =>
      conv_lhs => rw [disconnectActive]
      rw [show disconnectActive a room ws = a by rw [disconnectActive, hm]]
      rw [hm]
  | some s =>
      by_cases he : setDiscard s ws = []
      · have h1 : disconnectActive a room ws = ddel a room := by
          rw [disconnectActive, hm]
          simp [he]
        rw [h1]
        rw [disconnectActive, dget_ddel_self]
      · have h1 : disconnectActive a room ws = dset a room (setDiscard s ws) := by
          rw [disconnectActive, hm]
          simp [he]
        rw [h1, disconnectActive, dget_dset_self]
        have hnm : ws ∉ setDiscard s ws := setDiscard_not_mem s ws
        simp only [setDiscard_eq_self_of_not_mem _ _ hnm, he, if_false]
        exact dset_eq_self_of_dget _ _ _ (dget_dset_self a room (setDiscard s ws))

theorem disconnect_activeRooms (st : Registry) (room : String) (ws : Nat) :
    (st.disconnect room ws).activeRooms =
      disconnectActive st.activeRooms room ws := by
  unfold Registry.disconnect
  cases h : dget st.socketToUser ws with
  | none => rfl
  | some p =>
      obtain ⟨r0, u0⟩ := p
      rfl

theorem disconnect_s2u_self (st : Registry) (room : String) (ws : Nat) :
    dget (st.disconnect room ws).socketToUser ws = none := by
  unfold Registry.disconnect
  cases h : dget st.socketToUser ws with
  | none => simpa using h
  | some p =>
      obtain ⟨r0, u0⟩ := p
      simp [dget_ddel_self]

theorem disconnect_s2u_ne (st : Registry) (room : String) (ws : Nat)
    {w : Nat} (h : w ≠ ws) :
    dget (st.disconnect room ws).socketToUser w = dget st.socketToUser w := by
  unfold Registry.disconnect
  cases hm : dget st.socketToUser ws with
  | none => rfl
  | some p =>
      obtain ⟨r0, u0⟩ := p
      simp [dget_ddel_ne _ _ _ h]

theorem disconnect_activeList_self (st : Registry) (room : String) (ws : Nat) :
    (st.disconnect room ws).activeList room =
      setDiscard (st.activeList room) ws := by
  unfold Registry.activeList
  rw [disconnect_activeRooms]
  exact disconnectActive_dget_self _ _ _

/-- When the socket has no `socket_to_user` entry, `disconnect` only runs the
active-set step (`ws_manager.py:56-59`). -/
theorem disconnect_of_s2u_none (st : Registry) (room : String) (ws : Nat)
    (h : dget st.socketToUser ws = none) :
    st.disconnect room ws =
      { st with activeRooms := disconnectActive st.activeRooms room ws } := by
  unfold Registry.disconnect
  rw [h]

theorem removeActive_getD_self (a : List (String × List Nat)) (room : String)
    (s : Nat) :
    (dget (removeActive a room s) room).getD [] =
      setDiscard ((dget a room).getD []) s := by
  unfold removeActive
  cases h : dget a room with
  | none => simp [h, setDiscard]
  | some l => simp [dget_dset_self]

theorem removeActive_dget_ne (a : List (String × List Nat)) (room : String)
    (s : Nat) {r : String} (h : r ≠ room) :
    dget (removeActive a room s) r = dget a r := by
  unfold removeActive
  cases hm : dget a room with
  | none => rfl
  | some l => simp [dget_dset_ne _ _ _ _ h]

theorem removeUserEntry_lookup (uc : List (String × List (String × Nat)))
    (room u0 : String) (s : Nat) {r u : String} {w : Nat}
    (h : dget ((dget (removeUserEntry uc room u0 s) r).getD []) u = some w) :
    dget ((dget uc r).getD []) u = some w := by
  unfold removeUserEntry at h
  split at h
  · exact h
  · rename_i d hu
    split at h
    · exact h
    · rename_i w' hd
      split at h
      · by_cases hr : r = room
        · subst hr
          rw [dget_dset_self] at h
          simp only [Option.getD_some] at h
          have h3 : dget d u = some w := dget_of_dget_ddel h
          simpa [hu] using h3
        · rwa [dget_dset_ne _ _ _ _ hr] at h
      · exact h


theorem removeBadSocket_activeList_self (st : Registry) (room : String) (s : Nat) :
    (st.removeBadSocket room s).activeList room =
      setDiscard (st.activeList room) s := by
  unfold Registry.removeBadSocket Registry.activeList
  cases hs2u : dget st.socketToUser s with
  | none => exact removeActive_getD_self _ _ _
  | some p =>
      obtain ⟨r0, u0⟩ := p
      exact removeActive_getD_self _ _ _

theorem removeBadSocket_activeList_ne (st : Registry) (room : String) (s : Nat)
    {r : String} (h : r ≠ room) :
    (st.removeBadSocket room s).activeList r = st.activeList r := by
  unfold Registry.removeBadSocket Registry.activeList
  cases hs2u : dget st.socketToUser s with
  | none => rw [removeActive_dget_ne _ _ _ h]
  | some p =>
      obtain ⟨r0, u0⟩ := p
      rw [removeActive_dget_ne _ _ _ h]

/-- `del socket_to_user[s]` at `ws_manager.py:166` (or the entry was already
absent): after cleanup the socket has no `socket_to_user` entry. -/
theorem removeBadSocket_s2u_self (st : Registry) (room : String) (s : Nat) :
    dget (st.removeBadSocket room s).socketToUser s = none := by
  unfold Registry.removeBadSocket
  cases hs2u : dget st.socketToUser s with
  | none => simpa using hs2u
  | some p =>
      obtain ⟨r0, u0⟩ := p
      simp [dget_ddel_self]

theorem removeBadSocket_s2u_lookup (st : Registry) (room : String) (s : Nat)
    {w : Nat} {p : String × String}
    (h : dget (st.removeBadSocket room s).socketToUser w = some p) :
    dget st.socketToUser w = some p := by
  revert h
  unfold Registry.removeBadSocket
  cases hs2u : dget st.socketToUser s with
  | none => exact id
  | some q =>
      obtain ⟨r0, u0⟩ := q
      intro h
      exact dget_of_dget_ddel (by simpa using h)

theorem removeBadSocket_s2u_mono (st : Registry) (room : String) (s : Nat)
    {w : Nat} (h : dget st.socketToUser w = none) :
    dget (st.removeBadSocket room s).socketToUser w = none := by
  cases hx : dget (st.removeBadSocket room s).socketToUser w with
  | none => rfl
  | some p => rw [removeBadSocket_s2u_lookup st room s hx] at h; cases h

theorem removeBadSocket_userMap_lookup (st : Registry) (room : String) (s : Nat)
    {r u : String} {w : Nat}
    (h : dget ((st.removeBadSocket room s).userMap r) u = some w) :
    dget (st.userMap r) u = some w := by
  revert h
  unfold Registry.removeBadSocket Registry.userMap
  cases hs2u : dget st.socketToUser s with
  | none => exact id
  | some q =>
      obtain ⟨r0, u0⟩ := q
      exact removeUserEntry_lookup _ _ _ _

/-- Applying `disconnect` a second time with the same arguments changes
nothing: the second pass finds neither an active-set member nor a
`socket_to_user` entry for `ws`. -/
theorem disconnect_twice (st : Registry) (room : String) (ws : Nat) :
    (st.disconnect room ws).disconnect room ws = st.disconnect room ws := by
  rw [disconnect_of_s2u_none _ _ _ (disconnect_s2u_self st room ws)]
  have ha : disconnectActive (st.disconnect room ws).activeRooms room ws =
      (st.disconnect room ws).activeRooms := by
    rw [disconnect_activeRooms, disconnectActive_idem]
  rw [ha]

/-- Disconnecting a socket that is in neither structure leaves
`user_connections` and `socket_to_user` untouched; the only possible state
change is pruning a room key that was already mapped to the empty set
(`ws_manager.py:58-59`), which broadcast-failure cleanup can leave behind. -/
theorem disconnect_not_present (st : Registry) (room : String) (ws : Nat)
    (h1 : ws ∉ st.activeList room) (h2 : dget st.socketToUser ws = none) :
    (st.disconnect room ws).userConnections = st.userConnections ∧
    (st.disconnect room ws).socketToUser = st.socketToUser ∧
    (dget st.activeRooms room = some [] →
      (st.disconnect room ws).activeRooms = ddel st.activeRooms room) ∧
    (dget st.activeRooms room ≠ some [] → st.disconnect room ws = st) := by
  rw [disconnect_of_s2u_none st room ws h2]
  refine ⟨rfl, rfl, ?_, ?_⟩
  · intro hE
    show disconnectActive st.activeRooms room ws = ddel st.activeRooms room
    rw [disconnectActive, hE]
    simp [setDiscard]
  · intro hne
    cases hm : dget st.activeRooms room with
    | none =>
        have hx : disconnectActive st.activeRooms room ws = st.activeRooms := by
          rw [disconnectActive, hm]
        rw [hx]
    | some s =>
        have hsl : st.activeList room = s := by
          simp [Registry.activeList, hm]
        have hws : ws ∉ s := by
          rw [← hsl]
          exact h1
        have hs : setDiscard s ws = s := setDiscard_eq_self_of_not_mem s ws hws
        have hsne : s ≠ [] := by
          intro hnil
          exact hne (by rw [hm, hnil])
        have hx : disconnectActive st.activeRooms room ws = st.activeRooms := by
          rw [disconnectActive, hm]
          simp only [hs, hsne, if_false]
          exact dset_eq_self_of_dget _ _ _ hm
        rw [hx]

/-! ## Lemmas: the registry invariant is preserved -/

theorem inv_init : Inv Registry.init := by
  refine ⟨?_, ?_, ?_⟩ <;>
    simp [Registry.init, Registry.activeList, Registry.userMap, dget]

/-- `Inv` only depends on the three lookup views. -/
theorem inv_of_lookup_eq {st st' : Registry} (h : Inv st)
    (ha : ∀ r w, w ∈ st'.activeList r ↔ w ∈ st.activeList r)
    (hu : ∀ r u, dget (st'.userMap r) u = dget (st.userMap r) u)
    (hs : ∀ w, dget st'.socketToUser w = dget st.socketToUser w) : Inv st' := by
  obtain ⟨h1, h2, h3⟩ := h
  refine ⟨?_, ?_, ?_⟩
  · intro r w hw
    obtain ⟨u', hx, hy⟩ := h1 r w ((ha r w).1 hw)
    exact ⟨u', by rw [hs]; exact hx, by rw [hu]; exact hy⟩
  · intro r u w hm
    rw [hu] at hm
    obtain ⟨hx, hy⟩ := h2 r u w hm
    exact ⟨(ha r w).2 hx, by rw [hs]; exact hy⟩
  · intro w r u hsx
    rw [hs] at hsx
    obtain ⟨hx, hy⟩ := h3 w r u hsx
    exact ⟨(ha r w).2 hx, by rw [hu]; exact hy⟩

theorem ensureRoom_inv {st : Registry} (room : String) (h : Inv st) :
    Inv (st.ensureRoom room) :=
  inv_of_lookup_eq h
    (fun r w => by rw [ensureRoom_activeList])
    (fun r u => by rw [ensureRoom_userMap])
    (fun w => by rw [ensureRoom_socketToUser])

theorem addEntry_inv {st : Registry} {room u : String} {ws : Nat}
    (h : Inv st) (hfresh : dget st.socketToUser ws = none)
    (hnone : dget (st.userMap room) u = none) :
    Inv (st.addEntry room u ws) := by
  obtain ⟨h1, h2, h3⟩ := h
  refine ⟨?_, ?_, ?_⟩
  · intro r w hw
    by_cases hr : room = r
    · subst hr
      rw [addEntry_activeList_self, mem_setAdd] at hw
      rcases hw with hw | rfl
      · obtain ⟨u', hs, hm⟩ := h1 room w hw
        have hne : w ≠ ws := by
          intro he
          subst he
          rw [hfresh] at hs
          cases hs
        have hu' : u' ≠ u := by
          intro he
          subst he
          rw [hnone] at hm
          cases hm
        refine ⟨u', ?_, ?_⟩
        · rw [addEntry_s2u_ne st room u ws hne]
          exact hs
        · rw [addEntry_userMap_self, dget_dset_ne _ _ _ _ hu']
          exact hm
      · refine ⟨u, ?_, ?_⟩
        · rw [addEntry_s2u_self]
        · rw [addEntry_userMap_self, dget_dset_self]
    · rw [addEntry_activeList_ne st room u ws (Ne.symm hr)] at hw
      obtain ⟨u', hs, hm⟩ := h1 r w hw
      have hne : w ≠ ws := by
        intro he
        subst he
        rw [hfresh] at hs
        cases hs
      refine ⟨u', ?_, ?_⟩
      · rw [addEntry_s2u_ne st room u ws hne]
        exact hs
      · rw [addEntry_userMap_ne st room u ws (Ne.symm hr)]
        exact hm
  · intro r u' w hm
    by_cases hr : room = r
    · subst hr
      rw [addEntry_userMap_self] at hm
      by_cases hu' : u' = u
      · subst hu'
        rw [dget_dset_self] at hm
        injection hm with hm
        subst hm
        constructor
        · rw [addEntry_activeList_self, mem_setAdd]
          right
          rfl
        · rw [addEntry_s2u_self]
      · rw [dget_dset_ne _ _ _ _ hu'] at hm
        obtain ⟨hw, hs⟩ := h2 room u' w hm
        have hne : w ≠ ws := by
          intro he
          subst he
          rw [hfresh] at hs
          cases hs
        constructor
        · rw [addEntry_activeList_self, mem_setAdd]
          left
          exact hw
        · rw [addEntry_s2u_ne st room u ws hne]
          exact hs
    · rw [addEntry_userMap_ne st room u ws (Ne.symm hr)] at hm
      obtain ⟨hw, hs⟩ := h2 r u' w hm
      have hne : w ≠ ws := by
        intro he
        subst he
        rw [hfresh] at hs
        cases hs
      constructor
      · rw [addEntry_activeList_ne st room u ws (Ne.symm hr)]
        exact hw
      · rw [addEntry_s2u_ne st room u ws hne]
        exact hs
  · intro w r u' hs
    by_cases hw : w = ws
    · subst hw
      rw [addEntry_s2u_self] at hs
      have hp : room = r ∧ u = u' := by
        simpa using hs
      obtain ⟨hr, hu'⟩ := hp
      subst hr
      subst hu'
      constructor
      · rw [addEntry_activeList_self, mem_setAdd]
        right
        rfl
      · rw [addEntry_userMap_self, dget_dset_self]
    · rw [addEntry_s2u_ne st room u ws hw] at hs
      obtain ⟨hw2, hm⟩ := h3 w r u' hs
      by_cases hr : r = room
      · subst hr
        have hu' : u' ≠ u := by
          intro he
          subst he
          rw [hnone] at hm
          cases hm
        constructor
        · rw [addEntry_activeList_self, mem_setAdd]
          left
          exact hw2
        · rw [addEntry_userMap_self, dget_dset_ne _ _ _ _ hu']
          exact hm
      · constructor
        · rw [addEntry_activeList_ne st room u ws hr]
          exact hw2
        · rw [addEntry_userMap_ne st room u ws hr]
          exact hm

theorem evictEntry_inv {st : Registry} {room u : String} {old : Nat}
    (h : Inv st) (hold : dget (st.userMap room) u = some old) :
    Inv (st.evictEntry room u old) := by
  obtain ⟨h1, h2, h3⟩ := h
  obtain ⟨holdA, holdS⟩ := h2 room u old hold
  refine ⟨?_, ?_, ?_⟩
  · intro r w hw
    by_cases hr : room = r
    · subst hr
      rw [evictEntry_activeList_self, mem_setDiscard] at hw
      obtain ⟨hw, hwo⟩ := hw
      obtain ⟨u', hs, hm⟩ := h1 room w hw
      have hu' : u' ≠ u := by
        intro he
        subst he
        rw [hold] at hm
        injection hm with hm
        exact hwo hm.symm
      refine ⟨u', ?_, ?_⟩
      · rw [evictEntry_s2u_ne st room u old hwo]
        exact hs
      · rw [evictEntry_userMap_self, dget_ddel_ne _ _ _ hu']
        exact hm
    · rw [evictEntry_activeList_ne st room u old (Ne.symm hr)] at hw
      obtain ⟨u', hs, hm⟩ := h1 r w hw
      have hwo : w ≠ old := by
        intro he
        subst he
        rw [holdS] at hs
        have : room = r ∧ u = u' := by simpa using hs
        exact hr this.1
      refine ⟨u', ?_, ?_⟩
      · rw [evictEntry_s2u_ne st room u old hwo]
        exact hs
      · rw [evictEntry_userMap_ne st room u old (Ne.symm hr)]
        exact hm
  · intro r u' w hm
    by_cases hr : room = r
    · subst hr
      rw [evictEntry_userMap_self] at hm
      have hu' : u' ≠ u := by
        intro he
        subst he
        rw [dget_ddel_self] at hm
        cases hm
      rw [dget_ddel_ne _ _ _ hu'] at hm
      obtain ⟨hw, hs⟩ := h2 room u' w hm
      have hwo : w ≠ old := by
        intro he
        subst he
        rw [holdS] at hs
        have : room = room ∧ u = u' := by simpa using hs
        exact hu' this.2.symm
      constructor
      · rw [evictEntry_activeList_self, mem_setDiscard]
        exact ⟨hw, hwo⟩
      · rw [evictEntry_s2u_ne st room u old hwo]
        exact hs
    · rw [evictEntry_userMap_ne st room u old (Ne.symm hr)] at hm
      obtain ⟨hw, hs⟩ := h2 r u' w hm
      have hwo : w ≠ old := by
        intro he
        subst he
        rw [holdS] at hs
        have : room = r ∧ u = u' := by simpa using hs
        exact hr this.1
      constructor
      · rw [evictEntry_activeList_ne st room u old (Ne.symm hr)]
        exact hw
      · rw [evictEntry_s2u_ne st room u old hwo]
        exact hs
  · intro w r u' hs
    have hwo : w ≠ old := by
      intro he
      subst he
      rw [evictEntry_s2u_self] at hs
      cases hs
    rw [evictEntry_s2u_ne st room u old hwo] at hs
    obtain ⟨hw, hm⟩ := h3 w r u' hs
    by_cases hr : room = r
    · subst hr
      have hu' : u' ≠ u := by
        intro he
        subst he
        rw [hold] at hm
        injection hm with hm
        exact hwo hm.symm
      constructor
      · rw [evictEntry_activeList_self, mem_setDiscard]
        exact ⟨hw, hwo⟩
      · rw [evictEntry_userMap_self, dget_ddel_ne _ _ _ hu']
        exact hm
    · constructor
      · rw [evictEntry_activeList_ne st room u old (Ne.symm hr)]
        exact hw
      · rw [evictEntry_userMap_ne st room u old (Ne.symm hr)]
        exact hm

theorem connect_inv {st : Registry} {room u : String} {ws : Nat} {p : Bool}
    (h : Inv st) (hfresh : dget st.socketToUser ws = none) :
    Inv (st.connect room u ws p) := by
  unfold Registry.connect
  have h0 : Inv (st.ensureRoom room) := ensureRoom_inv room h
  have hfresh0 : dget (st.ensureRoom room).socketToUser ws = none := by
    rw [ensureRoom_socketToUser]
    exact hfresh
  cases hm : dget ((st.ensureRoom room).userMap room) u with
  | none => exact addEntry_inv h0 hfresh0 hm
  | some old =>
      have holdS : dget (st.ensureRoom room).socketToUser old = some (room, u) :=
        (h0.2.1 room u old hm).2
      have hws_old : ws ≠ old := by
        intro he
        subst he
        rw [hfresh0] at holdS
        cases holdS
      have h1 : Inv ((st.ensureRoom room).evictEntry room u old) :=
        evictEntry_inv h0 hm
      have hfresh1 :
          dget ((st.ensureRoom room).evictEntry room u old).socketToUser ws = none := by
        rw [evictEntry_s2u_ne _ _ _ _ hws_old]
        exact hfresh0
      have hnone1 :
          dget (((st.ensureRoom room).evictEntry room u old).userMap room) u = none := by
        rw [evictEntry_userMap_self]
        exact dget_ddel_self _ _
      cases p
      · exact addEntry_inv h1 hfresh1 hnone1
      · exact addEntry_inv h1 hfresh1 hnone1

/-- When the room's user dict maps `u0` to this very socket,
`disconnectUser` behaves (for lookups) like deleting that one entry; the
empty-dict pruning is invisible to lookups. -/
theorem disconnectUser_lookup (uc : List (String × List (String × Nat)))
    (room u0 : String) (ws : Nat) (d : List (String × Nat))
    (hd : dget uc room = some d) (hdu : dget d u0 = some ws)
    (r u' : String) :
    dget ((dget (disconnectUser uc room u0 ws) r).getD []) u' =
      dget ((dget (dset uc room (ddel d u0)) r).getD []) u' := by
  unfold disconnectUser
  simp only [hd, hdu]
  rw [if_pos trivial]
  by_cases hE : ddel d u0 = []
  · rw [if_pos hE]
    by_cases hr : r = room
    · subst hr
      rw [dget_ddel_self, dget_dset_self, hE]
      rfl
    · rw [dget_ddel_ne _ _ _ hr, dget_dset_ne _ _ _ _ hr]
  · rw [if_neg hE]

theorem disconnect_inv {st : Registry} {room : String} {ws : Nat}
    (h : Inv st)
    (hroom : ∀ p, dget st.socketToUser ws = some p → p.1 = room) :
    Inv (st.disconnect room ws) := by
  cases hs : dget st.socketToUser ws with
  | none =>
      rw [disconnect_of_s2u_none st room ws hs]
      have hnm : ws ∉ st.activeList room := by
        intro hmem
        obtain ⟨u', hx, _⟩ := h.1 room ws hmem
        rw [hs] at hx
        cases hx
      refine inv_of_lookup_eq h ?_ (fun r u => rfl) (fun w => rfl)
      intro r w
      show w ∈ (dget (disconnectActive st.activeRooms room ws) r).getD [] ↔ _
      by_cases hr : room = r
      · subst hr
        rw [show (dget (disconnectActive st.activeRooms room ws) room).getD []
              = setDiscard ((dget st.activeRooms room).getD []) ws from
            disconnectActive_dget_self _ _ _]
        rw [mem_setDiscard]
        constructor
        · intro hx
          exact hx.1
        · intro hx
          refine ⟨hx, ?_⟩
          intro he
          subst he
          exact hnm hx
      · rw [disconnectActive_dget_ne _ _ _ (Ne.symm hr)]
        exact Iff.rfl
  | some q =>
      obtain ⟨r0, u0⟩ := q
      have hr0 : r0 = room := hroom (r0, u0) hs
      subst hr0
      have hum : dget (st.userMap r0) u0 = some ws := (h.2.2 ws r0 u0 hs).2
      obtain ⟨d, hd⟩ : ∃ d, dget st.userConnections r0 = some d := by
        cases hx : dget st.userConnections r0 with
        | none =>
            exfalso
            unfold Registry.userMap at hum
            rw [hx] at hum
            simp [dget] at hum
        | some d => exact ⟨d, rfl⟩
      have hdu : dget d u0 = some ws := by
        unfold Registry.userMap at hum
        rw [hd] at hum
        simpa using hum
      have hInvE : Inv (st.evictEntry r0 u0 ws) := evictEntry_inv h hum
      have heq : st.disconnect r0 ws =
          { activeRooms := disconnectActive st.activeRooms r0 ws,
            userConnections := disconnectUser st.userConnections r0 u0 ws,
            socketToUser := ddel st.socketToUser ws } := by
        unfold Registry.disconnect
        rw [hs]
      rw [heq]
      refine inv_of_lookup_eq hInvE ?_ ?_ (fun w => rfl)
      · intro r w
        show w ∈ (dget (disconnectActive st.activeRooms r0 ws) r).getD [] ↔ _
        by_cases hr : r0 = r
        · subst hr
          rw [show (dget (disconnectActive st.activeRooms r0 ws) r0).getD []
                = setDiscard ((dget st.activeRooms r0).getD []) ws from
              disconnectActive_dget_self _ _ _]
          rw [show (st.evictEntry r0 u0 ws).activeList r0
                = setDiscard (st.activeList r0) ws from
              evictEntry_activeList_self st r0 u0 ws]
          exact Iff.rfl
        · rw [disconnectActive_dget_ne _ _ _ (Ne.symm hr)]
          rw [show (st.evictEntry r0 u0 ws).activeList r
                = st.activeList r from
              evictEntry_activeList_ne st r0 u0 ws (Ne.symm hr)]
          exact Iff.rfl
      · intro r u'
        have hx := disconnectUser_lookup st.userConnections r0 u0 ws d hd hdu r u'
        show dget ((dget (disconnectUser st.userConnections r0 u0 ws) r).getD []) u' = _
        rw [hx]
        have humap : st.userMap r0 = d := by
          unfold Registry.userMap
          rw [hd]
          rfl
        by_cases hr : r0 = r
        · subst hr
          rw [dget_dset_self]
          rw [show (st.evictEntry r0 u0 ws).userMap r0
                = ddel (st.userMap r0) u0 from evictEntry_userMap_self st r0 u0 ws]
          rw [humap]
          rfl
        · rw [dget_dset_ne _ _ _ _ (Ne.symm hr)]
          rw [show (st.evictEntry r0 u0 ws).userMap r
                = st.userMap r from evictEntry_userMap_ne st r0 u0 ws (Ne.symm hr)]
          rfl

theorem removeBadSocket_inv {st : Registry} {room : String} {s : Nat}
    (h : Inv st)
    (hcase : s ∈ st.activeList room ∨ dget st.socketToUser s = none) :
    Inv (st.removeBadSocket room s) := by
  cases hs2u : dget st.socketToUser s with
  | none =>
      have heq : st.removeBadSocket room s =
          { st with activeRooms := removeActive st.activeRooms room s } := by
        unfold Registry.removeBadSocket
        rw [hs2u]
      rw [heq]
      have hnm : s ∉ st.activeList room := by
        intro hmem
        obtain ⟨u', hx, _⟩ := h.1 room s hmem
        rw [hs2u] at hx
        cases hx
      refine inv_of_lookup_eq h ?_ (fun r u => rfl) (fun w => rfl)
      intro r w
      show w ∈ (dget (removeActive st.activeRooms room s) r).getD [] ↔ _
      by_cases hr : room = r
      · subst hr
        rw [show (dget (removeActive st.activeRooms room s) room).getD []
              = setDiscard ((dget st.activeRooms room).getD []) s from
            removeActive_getD_self _ _ _]
        rw [mem_setDiscard]
        constructor
        · exact fun hx => hx.1
        · intro hx
          refine ⟨hx, ?_⟩
          intro he
          subst he
          exact hnm hx
      · rw [removeActive_dget_ne _ _ _ (Ne.symm hr)]
        exact Iff.rfl
  | some q =>
      obtain ⟨r0, u0⟩ := q
      have hmem : s ∈ st.activeList room := by
        rcases hcase with hmem | hnone
        · exact hmem
        · rw [hs2u] at hnone
          cases hnone
      obtain ⟨u', hx, hm'⟩ := h.1 room s hmem
      rw [hs2u] at hx
      have hq : r0 = room ∧ u0 = u' := by simpa using hx
      obtain ⟨hr0, hu0⟩ := hq
      subst hr0
      subst hu0
      have hInvE : Inv (st.evictEntry r0 u0 s) := evictEntry_inv h hm'
      obtain ⟨d, hd⟩ : ∃ d, dget st.userConnections r0 = some d := by
        cases hxx : dget st.userConnections r0 with
        | none =>
            exfalso
            unfold Registry.userMap at hm'
            rw [hxx] at hm'
            simp [dget] at hm'
        | some d => exact ⟨d, rfl⟩
      have hdu : dget d u0 = some s := by
        unfold Registry.userMap at hm'
        rw [hd] at hm'
        simpa using hm'
      obtain ⟨l, hl⟩ : ∃ l, dget st.activeRooms r0 = some l := by
        cases hxx : dget st.activeRooms r0 with
        | none =>
            exfalso
            unfold Registry.activeList at hmem
            rw [hxx] at hmem
            simp at hmem
        | some l => exact ⟨l, rfl⟩
      have ha : st.activeList r0 = l := by
        unfold Registry.activeList
        rw [hl]
        rfl
      have humap : st.userMap r0 = d := by
        unfold Registry.userMap
        rw [hd]
        rfl
      have heq : st.removeBadSocket r0 s = st.evictEntry r0 u0 s := by
        unfold Registry.removeBadSocket removeActive removeUserEntry
          Registry.evictEntry
        simp only [hs2u, hl, hd, hdu, ha, humap]
        rw [if_pos trivial]
      rw [heq]
      exact hInvE

/-- The bad-socket cleanup loop preserves the invariant when every bad
socket either sits in the broadcast room's snapshot or is already
unregistered. -/
theorem cleanupBad_inv {room : String} :
    ∀ (bad : List Nat) (st : Registry), Inv st →
    (∀ s ∈ bad, s ∈ st.activeList room ∨ dget st.socketToUser s = none) →
    Inv (st.cleanupBad room bad) := by
  intro bad
  induction bad with
  | nil => exact fun st h _ => h
  | cons s rest ih =>
      intro st h hall
      have h1 : Inv (st.removeBadSocket room s) :=
        removeBadSocket_inv h (hall s (List.mem_cons_self s rest))
      apply ih _ h1
      intro s2 hs2
      rcases hall s2 (List.mem_cons_of_mem s hs2) with hmem | hnone
      · by_cases he : s2 = s
        · subst he
          right
          exact removeBadSocket_s2u_self st room s2
        · left
          rw [removeBadSocket_activeList_self, mem_setDiscard]
          exact ⟨hmem, he⟩
      · right
        exact removeBadSocket_s2u_mono st room s hnone

theorem cleanupBad_not_mem_mono {room : String} :
    ∀ (bad : List Nat) (st : Registry) (s2 : Nat),
    s2 ∉ st.activeList room → s2 ∉ (st.cleanupBad room bad).activeList room := by
  intro bad
  induction bad with
  | nil => exact fun st s2 h => h
  | cons s rest ih =>
      intro st s2 h
      apply ih
      rw [removeBadSocket_activeList_self, mem_setDiscard]
      intro hx
      exact h hx.1

theorem cleanupBad_s2u_none_mono {room : String} :
    ∀ (bad : List Nat) (st : Registry) (s2 : Nat),
    dget st.socketToUser s2 = none →
    dget (st.cleanupBad room bad).socketToUser s2 = none := by
  intro bad
  induction bad with
  | nil => exact fun st s2 h => h
  | cons s rest ih =>
      intro st s2 h
      exact ih _ _ (removeBadSocket_s2u_mono st room s h)

theorem cleanupBad_userMap_mono {room : String} :
    ∀ (bad : List Nat) (st : Registry) (s2 : Nat),
    (∀ u, dget (st.userMap room) u ≠ some s2) →
    ∀ u, dget ((st.cleanupBad room bad).userMap room) u ≠ some s2 := by
  intro bad
  induction bad with
  | nil => exact fun st s2 h => h
  | cons s rest ih =>
      intro st s2 h
      apply ih
      intro u hx
      exact h u (removeBadSocket_userMap_lookup st room s hx)

/-- After `removeBadSocket`, no username in the broadcast room still maps to
the removed socket (under the registry invariant). -/
theorem removeBadSocket_userMap_not {st : Registry} {room : String} {s : Nat}
    (h : Inv st) :
    ∀ u, dget ((st.removeBadSocket room s).userMap room) u ≠ some s := by
  intro u hcontra
  have hm2 : dget (st.userMap room) u = some s :=
    removeBadSocket_userMap_lookup st room s hcontra
  have hs2 : dget st.socketToUser s = some (room, u) := (h.2.1 room u s hm2).2
  obtain ⟨d, hd⟩ : ∃ d, dget st.userConnections room = some d := by
    cases hxx : dget st.userConnections room with
    | none =>
        exfalso
        unfold Registry.userMap at hm2
        rw [hxx] at hm2
        simp [dget] at hm2
    | some d => exact ⟨d, rfl⟩
  have hdu : dget d u = some s := by
    unfold Registry.userMap at hm2
    rw [hd] at hm2
    simpa using hm2
  have heq : (st.removeBadSocket room s).userConnections =
      removeUserEntry st.userConnections room u s := by
    unfold Registry.removeBadSocket
    rw [hs2]
  have heq2 : removeUserEntry st.userConnections room u s =
      dset st.userConnections room (ddel d u) := by
    unfold removeUserEntry
    simp only [hd, hdu]
    rw [if_pos trivial]
  have hz : dget ((st.removeBadSocket room s).userMap room) u = none := by
    unfold Registry.userMap
    rw [heq, heq2, dget_dset_self]
    exact dget_ddel_self d u
  rw [hcontra] at hz
  cases hz

theorem broadcast_attempted_def (st : Registry) (room : String)
    (exS : Option Nat) (exU : Option String) (fails : Nat → Bool) :
    (st.broadcast room exS exU fails).attempted =
      (st.activeList room).filter (broadcastKeep st exS exU) := rfl

theorem broadcast_failed_def (st : Registry) (room : String)
    (exS : Option Nat) (exU : Option String) (fails : Nat → Bool) :
    (st.broadcast room exS exU fails).failed =
      ((st.activeList room).filter (broadcastKeep st exS exU)).filter
        (fun s => fails s) := rfl

theorem broadcast_delivered_def (st : Registry) (room : String)
    (exS : Option Nat) (exU : Option String) (fails : Nat → Bool) :
    (st.broadcast room exS exU fails).delivered =
      ((st.activeList room).filter (broadcastKeep st exS exU)).filter
        (fun s => !fails s) := rfl

theorem broadcast_state_def (st : Registry) (room : String)
    (exS : Option Nat) (exU : Option String) (fails : Nat → Bool) :
    (st.broadcast room exS exU fails).state =
      (if (((st.activeList room).filter (broadcastKeep st exS exU)).filter
            (fun s => fails s)).isEmpty then st
       else st.cleanupBad room
         (((st.activeList room).filter (broadcastKeep st exS exU)).filter
           (fun s => fails s))) := rfl

theorem broadcast_state_inv {st : Registry} {room : String}
    {exS : Option Nat} {exU : Option String} {fails : Nat → Bool}
    (h : Inv st) : Inv (st.broadcast room exS exU fails).state := by
  rw [broadcast_state_def]
  by_cases hE : (((st.activeList room).filter (broadcastKeep st exS exU)).filter
      (fun s => fails s)).isEmpty
  · rw [if_pos hE]
    exact h
  · rw [if_neg hE]
    apply cleanupBad_inv _ _ h
    intro s hs
    left
    exact (List.mem_filter.mp (List.mem_filter.mp hs).1).1

theorem applyOp_inv {st : Registry} {op : Op} (h : Inv st)
    (hwf : wfOp st op = true) : Inv (applyOp st op) := by
  cases op with
  | connect room u ws p =>
      have hfresh : dget st.socketToUser ws = none := by
        simpa [wfOp, Option.isNone_iff_eq_none] using hwf
      exact connect_inv h hfresh
  | disconnect room ws =>
      apply disconnect_inv h
      intro p hp
      simp only [wfOp, hp, beq_iff_eq] at hwf
      exact hwf
  | disconnectUserAll u => exact h
  | broadcast room exS exU fl => exact broadcast_state_inv h

theorem runOps_inv : ∀ (ops : List Op) (st : Registry), Inv st →
    wfOps st ops = true → Inv (runOps st ops) := by
  intro ops
  induction ops with
  | nil => exact fun st h _ => h
  | cons op rest ih =>
      intro st h hwf
      rw [show wfOps st (op :: rest) = (wfOp st op && wfOps (applyOp st op) rest)
            from rfl, Bool.and_eq_true] at hwf
      exact ih (applyOp st op) (applyOp_inv h hwf.1) hwf.2

/-! ## Lemmas: history retrieval -/

theorem insertByTs_of_all_le (m : JoinedRow) :
    ∀ acc, (∀ x ∈ acc, x.timestamp ≤ m.timestamp) →
    insertByTs m acc = acc ++ [m] := by
  intro acc
  induction acc with
  | nil => intro _; rfl
  | cons x xs ih =>
      intro h
      unfold insertByTs
      rw [if_pos (h x (List.mem_cons_self x xs))]
      rw [ih (fun y hy => h y (List.mem_cons_of_mem x hy))]
      rfl

theorem sortByTs_aux :
    ∀ (l acc : List JoinedRow), tsSorted (acc ++ l) →
    List.foldl (fun a m => insertByTs m a) acc l = acc ++ l := by
  intro l
  induction l with
  | nil =>
      intro acc _
      simp
  | cons m l ih =>
      intro acc h
      have hle : ∀ x ∈ acc, x.timestamp ≤ m.timestamp := by
        intro x hx
        have h2 := (List.pairwise_append.mp h).2.2
        exact h2 x hx m (List.mem_cons_self m l)
      show List.foldl (fun a m => insertByTs m a) (insertByTs m acc) l = _
      rw [insertByTs_of_all_le m acc hle]
      have h3 : tsSorted ((acc ++ [m]) ++ l) := by
        rw [List.append_assoc]
        simpa using h
      rw [ih (acc ++ [m]) h3]
      simp

/-- An `ORDER BY timestamp` over rows whose timestamps are already
nondecreasing in scan order returns them unchanged. -/
theorem sortByTs_eq_self {l : List JoinedRow} (h : tsSorted l) :
    sortByTs l = l := by
  unfold sortByTs
  have := sortByTs_aux l [] (by simpa using h)
  simpa using this

theorem length_insertByTs (m : JoinedRow) :
    ∀ l, (insertByTs m l).length = l.length + 1 := by
  intro l
  induction l with
  | nil => rfl
  | cons x xs ih =>
      unfold insertByTs
      by_cases h : x.timestamp ≤ m.timestamp
      · simp [h, ih]
      · simp [h]

theorem length_sortByTs (l : List JoinedRow) :
    (sortByTs l).length = l.length := by
  unfold sortByTs
  suffices hgen : ∀ (l acc : List JoinedRow),
      (List.foldl (fun a m => insertByTs m a) acc l).length = acc.length + l.length by
    simpa using hgen l []
  intro l
  induction l with
  | nil => intro acc; simp
  | cons m rest ih =>
      intro acc
      show (List.foldl (fun a m => insertByTs m a) (insertByTs m acc) rest).length = _
      rw [ih (insertByTs m acc), length_insertByTs]
      simp [Nat.add_comm, Nat.add_assoc, Nat.add_left_comm]

theorem drop_take_of_length {α : Type} (l : List α) (L : Nat) :
    (l.drop (l.length - L)).take L = l.drop (l.length - L) := by
  apply List.take_of_length_le
  rw [List.length_drop]
  omega

theorem length_filterMap_of_isSome {α β : Type} {f : α → Option β} :
    ∀ l : List α, (∀ x ∈ l, (f x).isSome) → (l.filterMap f).length = l.length := by
  intro l
  induction l with
  | nil => intro _; rfl
  | cons x xs ih =>
      intro h
      obtain ⟨y, hy⟩ := Option.isSome_iff_exists.mp (h x (List.mem_cons_self x xs))
      rw [List.filterMap_cons, hy]
      simp only [List.length_cons]
      rw [ih (fun z hz => h z (List.mem_cons_of_mem x hz))]

theorem roomRows_insert (db : DB) (uid rid : Nat) (content : String) (now : Nat) :
    (db.insertMessage uid rid content now false).roomRows rid =
      db.roomRows rid ++ [⟨db.nextMsgId, uid, rid, content, now⟩] := by
  unfold DB.insertMessage DB.roomRows
  simp [List.filter_append]

theorem roomRows_insert_ne (db : DB) (uid rid rid2 : Nat) (content : String)
    (now : Nat) (h : rid ≠ rid2) :
    (db.insertMessage uid rid content now false).roomRows rid2 =
      db.roomRows rid2 := by
  unfold DB.insertMessage DB.roomRows
  simp [List.filter_append, h]

theorem joinedRows_insert (db : DB) (uid rid : Nat) (content : String)
    (now : Nat) (usr : UserRow)
    (hu : db.users.find? (fun x => x.id == uid) = some usr) :
    (db.insertMessage uid rid content now false).joinedRows rid =
      db.joinedRows rid ++ [⟨db.nextMsgId, content, now, uid, usr.username⟩] := by
  unfold DB.joinedRows
  rw [show (db.insertMessage uid rid content now false).users = db.users from rfl]
  rw [roomRows_insert, List.filterMap_append]
  congr 1
  simp [hu]

theorem getRoomMessages_none (db : DB) (rid : Nat)
    (h : tsSorted (db.joinedRows rid)) :
    db.getRoomMessages rid none = db.joinedRows rid := by
  unfold DB.getRoomMessages
  simp [pyTruthyLimit, sortByTs_eq_self h]

theorem getRoomMessages_zero (db : DB) (rid : Nat) :
    db.getRoomMessages rid (some 0) = db.getRoomMessages rid none := by
  unfold DB.getRoomMessages
  simp [pyTruthyLimit]

theorem getRoomMessages_limit (db : DB) (rid L : Nat) (hL : L ≠ 0)
    (h : tsSorted (db.joinedRows rid))
    (hcount : (db.roomRows rid).length = (db.joinedRows rid).length) :
    db.getRoomMessages rid (some L) =
      (db.joinedRows rid).drop ((db.joinedRows rid).length - L) := by
  unfold DB.getRoomMessages
  have ht : pyTruthyLimit (some L) = true := by
    simp [pyTruthyLimit, hL]
  rw [if_pos ht]
  simp only [Option.getD_some]
  rw [sortByTs_eq_self h, hcount]
  exact drop_take_of_length _ _

/-- Every socket processed by the cleanup loop ends up removed from the
room's active set, the room's user map, and the socket-to-user map. -/
theorem cleanupBad_removed {room : String} :
    ∀ (bad : List Nat) (st : Registry), Inv st →
    (∀ s ∈ bad, s ∈ st.activeList room ∨ dget st.socketToUser s = none) →
    ∀ s ∈ bad,
      s ∉ (st.cleanupBad room bad).activeList room ∧
      dget (st.cleanupBad room bad).socketToUser s = none ∧
      ∀ u, dget ((st.cleanupBad room bad).userMap room) u ≠ some s := by
  intro bad
  induction bad with
  | nil =>
      intro st _ _ s hs
      cases hs
  | cons s0 rest ih =>
      intro st hInv hall s hs
      have hInv1 : Inv (st.removeBadSocket room s0) :=
        removeBadSocket_inv hInv (hall s0 (List.mem_cons_self s0 rest))
      have hprop : ∀ s2 ∈ rest,
          s2 ∈ (st.removeBadSocket room s0).activeList room ∨
          dget (st.removeBadSocket room s0).socketToUser s2 = none := by
        intro s2 hs2
        rcases hall s2 (List.mem_cons_of_mem s0 hs2) with hmem | hnone
        · by_cases he : s2 = s0
          · subst he
            right
            exact removeBadSocket_s2u_self st room s2
          · left
            rw [removeBadSocket_activeList_self, mem_setDiscard]
            exact ⟨hmem, he⟩
        · right
          exact removeBadSocket_s2u_mono st room s0 hnone
      rcases List.mem_cons.mp hs with rfl | hs2
      · have p1 : s ∉ (st.removeBadSocket room s).activeList room := by
          rw [removeBadSocket_activeList_self]
          exact setDiscard_not_mem _ _
        have p2 : dget (st.removeBadSocket room s).socketToUser s = none :=
          removeBadSocket_s2u_self st room s
        have p3 : ∀ u,
            dget ((st.removeBadSocket room s).userMap room) u ≠ some s :=
          removeBadSocket_userMap_not hInv
        exact ⟨cleanupBad_not_mem_mono rest _ s p1,
               cleanupBad_s2u_none_mono rest _ s p2,
               cleanupBad_userMap_mono rest _ s p3⟩
      · exact ih (st.removeBadSocket room s0) hInv1 hprop s hs2

/-! ## Claim theorems -/

/-- C7 (counterexample): the claim "disconnecting a session that is not
present is a no-op" fails on a reachable state.  After `connect("r","a",1)`
and a broadcast in which socket 1's send fails, the cleanup loop
(`ws_manager.py:158-166`) leaves `active_rooms = {"r": set()}` — it never
prunes empty entries.  Disconnecting the absent socket 7 from that state
then deletes the empty `"r"` key (`ws_manager.py:58-59`), so the registry
state changes. -/
theorem c7_counterexample :
    (runOps Registry.init
        [Op.connect "r" "a" 1 false,
         Op.broadcast "r" none none [1]]).disconnect "r" 7 ≠
      runOps Registry.init
        [Op.connect "r" "a" 1 false,
         Op.broadcast "r" none none [1]] := by
  decide

/-- C7 (amended): `ConnectionManager.disconnect` raises no exception (it is
a total function here) and calling it twice always yields exactly the state
of calling it once, for every registry state and every `(room, websocket)`
pair.  Disconnecting a session that is not present leaves
`user_connections` and `socket_to_user` untouched and leaves the active-set
map unchanged as well — except that a room entry already holding the empty
set (as broadcast-failure cleanup can leave behind) is pruned, which changes
no membership. -/
theorem c7_disconnect_idempotent (st : Registry) (room : String) (ws : Nat) :
    ((st.disconnect room ws).disconnect room ws = st.disconnect room ws) ∧
    (ws ∉ st.activeList room → dget st.socketToUser ws = none →
      (st.disconnect room ws).userConnections = st.userConnections ∧
      (st.disconnect room ws).socketToUser = st.socketToUser ∧
      (dget st.activeRooms room = some [] →
        (st.disconnect room ws).activeRooms = ddel st.activeRooms room) ∧
      (dget st.activeRooms room ≠ some [] → st.disconnect room ws = st)) :=
  ⟨disconnect_twice st room ws,
   fun h1 h2 => disconnect_not_present st room ws h1 h2⟩

/-- C7 (witness): the amended theorem applied at a concrete state — socket 9
is not present, and disconnecting it (twice) is a strict no-op there. -/
theorem c7_witness :
    ((Registry.mk [("r", [1])] [("r", [("a", 1)])] [(1, ("r", "a"))]).disconnect
        "r" 9).disconnect "r" 9 =
      (Registry.mk [("r", [1])] [("r", [("a", 1)])] [(1, ("r", "a"))]).disconnect
        "r" 9 ∧
    (Registry.mk [("r", [1])] [("r", [("a", 1)])] [(1, ("r", "a"))]).disconnect
        "r" 9 =
      Registry.mk [("r", [1])] [("r", [("a", 1)])] [(1, ("r", "a"))] := by
  have h := c7_disconnect_idempotent
    (Registry.mk [("r", [1])] [("r", [("a", 1)])] [(1, ("r", "a"))]) "r" 9
  exact ⟨h.1, (h.2 (by decide) (by decide)).2.2.2 (by decide)⟩

/-- C8: a connection whose first inbound frame is not an auth message gets
exactly one "Authentication required" error notice and is closed, with the
Room Registry left untouched (`backend.py:279-284`; the `finally` block
skips cleanup because `user` is still `None`). -/
theorem c8_handshake_gating (st : Registry) (db : DB)
    (tokenUser : String → Option String) (room : String) (ws : Nat)
    (msg : AuthMsg) (leaveFails : Nat → Bool) (hty : msg.ty ≠ "auth") :
    websocketEndpoint st db tokenUser room ws msg leaveFails =
      ⟨st, [Out.error "Authentication required"], [], true⟩ := by
  have hauth : authPhase db tokenUser room msg =
      .rejected "Authentication required" := by
    unfold authPhase
    rw [if_pos hty]
  unfold websocketEndpoint
  rw [hauth]

/-- C8 (witness): a connection opening with `send_message` is rejected with
the auth-required notice and the (empty) registry is unchanged. -/
theorem c8_witness :
    websocketEndpoint Registry.init (DB.mk [] [] [] 1) (fun _ => none) "r" 1
        (AuthMsg.mk "send_message" none) (fun _ => false) =
      ⟨Registry.init, [Out.error "Authentication required"], [], true⟩ :=
  c8_handshake_gating Registry.init (DB.mk [] [] [] 1) (fun _ => none) "r" 1
    (AuthMsg.mk "send_message" none) (fun _ => false) (by decide)

/-- C2: the claim fails on the code.  With a live registered session
`("r","u") ↦ socket 1` and a successful liveness probe (`probeOk = true`),
`connect` does NOT reject the new socket 2 and does NOT leave the state
unchanged: the `ConnectionRefusedError` raised at `ws_manager.py:37` is
caught by the `except Exception` on line 38 of the same `try`, so the live
old session is evicted and the new socket registered — and the result is
identical to the probe-failure path (`probeOk = false`). -/
theorem c2_live_duplicate_evicted :
    (Registry.mk [("r", [1])] [("r", [("u", 1)])] [(1, ("r", "u"))]).connect
        "r" "u" 2 true =
      Registry.mk [("r", [2])] [("r", [("u", 2)])] [(2, ("r", "u"))] ∧
    dget ((Registry.mk [("r", [1])] [("r", [("u", 1)])]
        [(1, ("r", "u"))]).connect "r" "u" 2 true).socketToUser 1 = none ∧
    dget (((Registry.mk [("r", [1])] [("r", [("u", 1)])]
        [(1, ("r", "u"))]).connect "r" "u" 2 true).userMap "r") "u" = some 2 ∧
    (Registry.mk [("r", [1])] [("r", [("u", 1)])] [(1, ("r", "u"))]).connect
        "r" "u" 2 true =
      (Registry.mk [("r", [1])] [("r", [("u", 1)])] [(1, ("r", "u"))]).connect
        "r" "u" 2 false := by
  decide

/-- C5: after any well-formed sequence of `connect`, `disconnect`,
`disconnect_user_from_all_rooms` and broadcast-failure-cleanup operations
starting from the empty registry, the two structures are mutually
consistent: every websocket in a room's active set is the value of exactly
one username in that room's user map, and every `(room, username) ↦
websocket` entry has its websocket in the room's active set and mapped back
to `(room, username)` in `socket_to_user`.  Well-formedness (`wfOps`) is the
server's actual call discipline: `connect` receives a freshly accepted
socket, `disconnect` the room the socket registered under. -/
theorem c5_registry_consistency (ops : List Op)
    (hwf : wfOps Registry.init ops = true) :
    (∀ room ws, ws ∈ (runOps Registry.init ops).activeList room →
      ∃! u, dget ((runOps Registry.init ops).userMap room) u = some ws) ∧
    (∀ room u ws,
      dget ((runOps Registry.init ops).userMap room) u = some ws →
      ws ∈ (runOps Registry.init ops).activeList room ∧
      dget (runOps Registry.init ops).socketToUser ws = some (room, u)) := by
  have h := runOps_inv ops Registry.init inv_init hwf
  refine ⟨?_, h.2.1⟩
  intro room ws hmem
  obtain ⟨u, hs, hm⟩ := h.1 room ws hmem
  refine ⟨u, hm, ?_⟩
  intro u' hm'
  have hs' := (h.2.1 room u' ws hm').2
  rw [hs] at hs'
  have hp : room = room ∧ u = u' := by simpa using hs'
  exact hp.2.symm

/-- C5 (witness): a concrete well-formed history — two connects, a broadcast
in which socket 2's send fails, a disconnect, and a reconnect — ends with
socket 3 active in room `"r"` under exactly one username. -/
theorem c5_witness :
    wfOps Registry.init
      [Op.connect "r" "a" 1 false, Op.connect "r" "b" 2 true,
       Op.broadcast "r" none none [2], Op.disconnect "r" 1,
       Op.connect "r" "a" 3 false] = true ∧
    (∃! u, dget ((runOps Registry.init
      [Op.connect "r" "a" 1 false, Op.connect "r" "b" 2 true,
       Op.broadcast "r" none none [2], Op.disconnect "r" 1,
       Op.connect "r" "a" 3 false]).userMap "r") u = some 3) :=
  ⟨by decide,
   (c5_registry_consistency
      [Op.connect "r" "a" 1 false, Op.connect "r" "b" 2 true,
       Op.broadcast "r" none none [2], Op.disconnect "r" 1,
       Op.connect "r" "a" 3 false] (by decide)).1 "r" 3 (by decide)⟩

/-- C4: for every broadcast, (i) every snapshot member that passes the
exclusion filter is attempted regardless of other members' failures, (ii)
every attempted member whose own send does not fail is delivered — so one
member's failure never aborts delivery to the rest — and (iii) every
attempted member whose send fails is afterwards removed from the room's
member set, the `(room, user)` map, and the socket-to-user map. -/
theorem c4_broadcast_partial_failure (st : Registry) (room : String)
    (exS : Option Nat) (exU : Option String) (fails : Nat → Bool)
    (hInv : Inv st) :
    (∀ s ∈ st.activeList room, broadcastKeep st exS exU s = true →
      s ∈ (st.broadcast room exS exU fails).attempted) ∧
    (∀ s ∈ (st.broadcast room exS exU fails).attempted, fails s = false →
      s ∈ (st.broadcast room exS exU fails).delivered) ∧
    (∀ s ∈ (st.broadcast room exS exU fails).attempted, fails s = true →
      s ∉ (st.broadcast room exS exU fails).state.activeList room ∧
      dget (st.broadcast room exS exU fails).state.socketToUser s = none ∧
      ∀ u, dget ((st.broadcast room exS exU fails).state.userMap room) u ≠
        some s) := by
  refine ⟨?_, ?_, ?_⟩
  · intro s hs hk
    rw [broadcast_attempted_def]
    exact List.mem_filter.mpr ⟨hs, hk⟩
  · intro s hs hf
    rw [broadcast_attempted_def] at hs
    rw [broadcast_delivered_def]
    exact List.mem_filter.mpr ⟨hs, by simp [hf]⟩
  · intro s hs hf
    rw [broadcast_attempted_def] at hs
    have hbad : s ∈ ((st.activeList room).filter
        (broadcastKeep st exS exU)).filter (fun s => fails s) :=
      List.mem_filter.mpr ⟨hs, hf⟩
    have hne : (((st.activeList room).filter
        (broadcastKeep st exS exU)).filter (fun s => fails s)).isEmpty = false := by
      cases hcase : ((st.activeList room).filter
          (broadcastKeep st exS exU)).filter (fun s => fails s) with
      | nil => rw [hcase] at hbad; cases hbad
      | cons a l => rfl
    rw [broadcast_state_def, if_neg (by rw [hne]; exact Bool.false_ne_true)]
    have hall : ∀ s2 ∈ ((st.activeList room).filter
        (broadcastKeep st exS exU)).filter (fun s => fails s),
        s2 ∈ st.activeList room ∨ dget st.socketToUser s2 = none := by
      intro s2 hs2
      left
      exact (List.mem_filter.mp (List.mem_filter.mp hs2).1).1
    exact cleanupBad_removed _ st hInv hall s hbad

/-- C4 (witness): room `"r"` has members 1, 2, 3; socket 2's send raises.
Sockets 1 and 3 are still attempted and delivered, and 2 is removed from all
three structures afterwards. -/
theorem c4_witness :
    1 ∈ ((Registry.mk [("r", [1, 2, 3])]
        [("r", [("a", 1), ("b", 2), ("c", 3)])]
        [(1, ("r", "a")), (2, ("r", "b")), (3, ("r", "c"))]).broadcast
        "r" none none (fun s => s == 2)).delivered ∧
    3 ∈ ((Registry.mk [("r", [1, 2, 3])]
        [("r", [("a", 1), ("b", 2), ("c", 3)])]
        [(1, ("r", "a")), (2, ("r", "b")), (3, ("r", "c"))]).broadcast
        "r" none none (fun s => s == 2)).delivered ∧
    2 ∉ ((Registry.mk [("r", [1, 2, 3])]
        [("r", [("a", 1), ("b", 2), ("c", 3)])]
        [(1, ("r", "a")), (2, ("r", "b")), (3, ("r", "c"))]).broadcast
        "r" none none (fun s => s == 2)).state.activeList "r" ∧
    dget ((Registry.mk [("r", [1, 2, 3])]
        [("r", [("a", 1), ("b", 2), ("c", 3)])]
        [(1, ("r", "a")), (2, ("r", "b")), (3, ("r", "c"))]).broadcast
        "r" none none (fun s => s == 2)).state.socketToUser 2 = none := by
  have hInv : Inv (Registry.mk [("r", [1, 2, 3])]
      [("r", [("a", 1), ("b", 2), ("c", 3)])]
      [(1, ("r", "a")), (2, ("r", "b")), (3, ("r", "c"))]) := by
    have h := runOps_inv
      [Op.connect "r" "a" 1 false, Op.connect "r" "b" 2 false,
       Op.connect "r" "c" 3 false] Registry.init inv_init (by decide)
    rwa [show runOps Registry.init
        [Op.connect "r" "a" 1 false, Op.connect "r" "b" 2 false,
         Op.connect "r" "c" 3 false] =
      Registry.mk [("r", [1, 2, 3])]
        [("r", [("a", 1), ("b", 2), ("c", 3)])]
        [(1, ("r", "a")), (2, ("r", "b")), (3, ("r", "c"))] from by decide] at h
  have h := c4_broadcast_partial_failure (Registry.mk [("r", [1, 2, 3])]
      [("r", [("a", 1), ("b", 2), ("c", 3)])]
      [(1, ("r", "a")), (2, ("r", "b")), (3, ("r", "c"))]) "r" none none
      (fun s => s == 2) hInv
  refine ⟨h.2.1 1 ?_ (by decide), h.2.1 3 ?_ (by decide),
          (h.2.2 2 ?_ (by decide)).1, (h.2.2 2 ?_ (by decide)).2.1⟩ <;> decide

/-- C9 (counterexample): the join announcement at `backend.py:325-331`
passes no exclusion argument to `broadcast`, so the joining session itself
receives `user_joined`.  Here socket 2 has just joined room `"r"` (it is the
most recent `connect`) and the join broadcast delivers to it. -/
theorem c9_counterexample :
    2 ∈ (joinAnnounce (runOps Registry.init
        [Op.connect "r" "a" 1 false, Op.connect "r" "b" 2 false]) "r"
        (fun _ => false)).delivered := by
  decide

/-- C9 (amended): the join announcement (`backend.py:325-331`) is delivered
exactly once to every current member of the room INCLUDING the joining
session (the broadcast call passes no exclusion); the leave announcement
(`backend.py:373-381`) is delivered exactly once to every remaining member
and never to the leaver — the leaver is absent only because `disconnect` ran
first. -/
theorem c9_join_leave_announcements (st : Registry) (room : String) (ws : Nat)
    (hmem : ws ∈ st.activeList room) (hnd : (st.activeList room).Nodup) :
    ((joinAnnounce st room (fun _ => false)).delivered = st.activeList room ∧
     ws ∈ (joinAnnounce st room (fun _ => false)).delivered ∧
     (joinAnnounce st room (fun _ => false)).delivered.Nodup) ∧
    ((leaveSequence st room ws (fun _ => false)).2.delivered.Nodup ∧
     ws ∉ (leaveSequence st room ws (fun _ => false)).2.delivered ∧
     ∀ w, w ∈ (leaveSequence st room ws (fun _ => false)).2.delivered ↔
       (w ∈ st.activeList room ∧ w ≠ ws)) := by
  have hkeep : ∀ (st2 : Registry) (s : Nat),
      broadcastKeep st2 none none s = true := fun _ _ => rfl
  have hjoin : (joinAnnounce st room (fun _ => false)).delivered =
      st.activeList room := by
    unfold joinAnnounce
    rw [broadcast_delivered_def]
    rw [List.filter_eq_self.mpr (fun a _ => hkeep st a)]
    exact List.filter_eq_self.mpr (fun a _ => rfl)
  have hleave : (leaveSequence st room ws (fun _ => false)).2.delivered =
      setDiscard (st.activeList room) ws := by
    show ((st.disconnect room ws).broadcast room none none
        (fun _ => false)).delivered = _
    rw [broadcast_delivered_def]
    rw [List.filter_eq_self.mpr (fun a _ => hkeep (st.disconnect room ws) a)]
    rw [disconnect_activeList_self st room ws]
    exact List.filter_eq_self.mpr (fun a _ => rfl)
  refine ⟨⟨hjoin, ?_, ?_⟩, ?_, ?_, ?_⟩
  · rw [hjoin]
    exact hmem
  · rw [hjoin]
    exact hnd
  · rw [hleave]
    exact List.Nodup.filter _ hnd
  · rw [hleave]
    exact setDiscard_not_mem _ _
  · intro w
    rw [hleave]
    exact mem_setDiscard _ _ _

/-- C9 (witness): room `"r"` with members 1 and 2, socket 2 the joiner and
later the leaver: the join broadcast reaches both 1 and 2, the leave
broadcast reaches only 1. -/
theorem c9_witness :
    (joinAnnounce (Registry.mk [("r", [1, 2])]
        [("r", [("a", 1), ("b", 2)])]
        [(1, ("r", "a")), (2, ("r", "b"))]) "r" (fun _ => false)).delivered =
      [1, 2] ∧
    2 ∈ (joinAnnounce (Registry.mk [("r", [1, 2])]
        [("r", [("a", 1), ("b", 2)])]
        [(1, ("r", "a")), (2, ("r", "b"))]) "r" (fun _ => false)).delivered ∧
    2 ∉ (leaveSequence (Registry.mk [("r", [1, 2])]
        [("r", [("a", 1), ("b", 2)])]
        [(1, ("r", "a")), (2, ("r", "b"))]) "r" 2 (fun _ => false)).2.delivered := by
  have h := c9_join_leave_announcements (Registry.mk [("r", [1, 2])]
      [("r", [("a", 1), ("b", 2)])]
      [(1, ("r", "a")), (2, ("r", "b"))]) "r" 2 (by decide) (by decide)
  refine ⟨?_, h.1.2.1, h.2.2.1⟩
  rw [h.1.1]
  decide

/-- C1: the claimed flow (register, then auth_success, then history) never
happens in the code.  For every websocket whose first frame is a valid auth
message naming an existing user and an existing room, the call site
`manager.connect(room_name, websocket)` at `backend.py:306` supplies only
`connectCallArgs = 2` of the `connectParams.length = 3` required positional
parameters of `ConnectionManager.connect` (`connectCallSiteOk = false`), so
the call raises `TypeError` before any registry mutation; the handler's
`except`/`finally` then run: nothing is ever sent to the socket (no
`auth_success`, no `message_history`), the socket never enters the room's
member set or `socket_to_user`, and a spurious `user_left` is broadcast. -/
theorem c1_endpoint_never_registers (st : Registry) (db : DB)
    (tokenUser : String → Option String) (room : String) (ws : Nat)
    (t uname : String) (user : UserRow)
    (ht : t ≠ "")
    (htok : tokenUser t = some uname)
    (huser : db.findUser uname = some user)
    (hroom : db.roomExists room = true) :
    connectCallSiteOk = false ∧
    (websocketEndpoint st db tokenUser room ws (AuthMsg.mk "auth" (some t))
      (fun _ => false)).sent = [] ∧
    (websocketEndpoint st db tokenUser room ws (AuthMsg.mk "auth" (some t))
      (fun _ => false)).broadcasts = [(room, Out.userLeft user.username)] ∧
    ws ∉ (websocketEndpoint st db tokenUser room ws (AuthMsg.mk "auth" (some t))
      (fun _ => false)).registry.activeList room ∧
    dget (websocketEndpoint st db tokenUser room ws (AuthMsg.mk "auth" (some t))
      (fun _ => false)).registry.socketToUser ws = none := by
  have hauth : authPhase db tokenUser room (AuthMsg.mk "auth" (some t)) =
      .accepted user := by
    unfold authPhase
    simp [ht, htok, huser, hroom]
  have hend : websocketEndpoint st db tokenUser room ws
      (AuthMsg.mk "auth" (some t)) (fun _ => false) =
      ⟨((st.disconnect room ws).broadcast room none none (fun _ => false)).state,
       [], [(room, Out.userLeft user.username)], true⟩ := by
    unfold websocketEndpoint
    rw [hauth]
  have hstate : ((st.disconnect room ws).broadcast room none none
      (fun _ => false)).state = st.disconnect room ws := by
    rw [broadcast_state_def]
    simp
  refine ⟨rfl, ?_, ?_, ?_, ?_⟩
  · rw [hend]
  · rw [hend]
  · rw [hend]
    show ws ∉ ((st.disconnect room ws).broadcast room none none
      (fun _ => false)).state.activeList room
    rw [hstate, disconnect_activeList_self]
    exact setDiscard_not_mem _ _
  · rw [hend]
    show dget ((st.disconnect room ws).broadcast room none none
      (fun _ => false)).state.socketToUser ws = none
    rw [hstate]
    exact disconnect_s2u_self st room ws

/-- C1 (witness): user `alice` exists, room `"r"` exists, the token is
valid — and still the socket is never registered and nothing is sent. -/
theorem c1_witness :
    connectCallSiteOk = false ∧
    (websocketEndpoint Registry.init
        (DB.mk [UserRow.mk 1 "alice"] [RoomRow.mk 1 "r"] [] 1)
        (fun t => if t = "tok" then some "alice" else none) "r" 7
        (AuthMsg.mk "auth" (some "tok")) (fun _ => false)).sent = [] ∧
    7 ∉ (websocketEndpoint Registry.init
        (DB.mk [UserRow.mk 1 "alice"] [RoomRow.mk 1 "r"] [] 1)
        (fun t => if t = "tok" then some "alice" else none) "r" 7
        (AuthMsg.mk "auth" (some "tok")) (fun _ => false)).registry.activeList
        "r" ∧
    dget (websocketEndpoint Registry.init
        (DB.mk [UserRow.mk 1 "alice"] [RoomRow.mk 1 "r"] [] 1)
        (fun t => if t = "tok" then some "alice" else none) "r" 7
        (AuthMsg.mk "auth" (some "tok")) (fun _ => false)).registry.socketToUser
        7 = none := by
  have h := c1_endpoint_never_registers Registry.init
    (DB.mk [UserRow.mk 1 "alice"] [RoomRow.mk 1 "r"] [] 1)
    (fun t => if t = "tok" then some "alice" else none) "r" 7 "tok" "alice"
    (UserRow.mk 1 "alice") (by decide) (by decide) (by decide) (by decide)
  exact ⟨h.1, h.2.1, h.2.2.2.1, h.2.2.2.2⟩

/-- C3: the claim fails on the code.  Room `"r"` (id 1) holds one stored
message `m0`; user `alice` sends `"hello"` and the durable INSERT fails with
a sqlite error.  `DatabaseManager.execute_query` (`dbManager.py:110-111`)
catches the error and only prints it, so `MessageService.send_message`
reports success: both the `/send_message` route and the websocket
receive-loop body leave the database unchanged yet still broadcast a
`new_message` event (carrying the previously stored message `m0`) and send
the sender no error notice (the HTTP route even returns 200/"Message sent
successfully"). -/
theorem c3_broadcast_despite_write_failure :
    httpSendMessage
        (DB.mk [UserRow.mk 1 "alice"] [RoomRow.mk 1 "r"]
          [MsgRow.mk 1 1 1 "m0" 10] 2)
        (Registry.mk [("r", [5])] [("r", [("alice", 5)])] [(5, ("r", "alice"))])
        (UserRow.mk 1 "alice") "r" "hello" 20 true (fun _ => false) =
      (DB.mk [UserRow.mk 1 "alice"] [RoomRow.mk 1 "r"]
          [MsgRow.mk 1 1 1 "m0" 10] 2,
       Registry.mk [("r", [5])] [("r", [("alice", 5)])] [(5, ("r", "alice"))],
       [("r", Out.newMessage (JoinedRow.mk 1 "m0" 10 1 "alice"))],
       HttpResp.ok "Message sent successfully") ∧
    wsLoopBody
        (DB.mk [UserRow.mk 1 "alice"] [RoomRow.mk 1 "r"]
          [MsgRow.mk 1 1 1 "m0" 10] 2)
        (Registry.mk [("r", [5])] [("r", [("alice", 5)])] [(5, ("r", "alice"))])
        (UserRow.mk 1 "alice") "r" 1 (LoopMsg.sendMsg "hello") 20 true
        (fun _ => false) =
      ⟨DB.mk [UserRow.mk 1 "alice"] [RoomRow.mk 1 "r"]
          [MsgRow.mk 1 1 1 "m0" 10] 2,
       Registry.mk [("r", [5])] [("r", [("alice", 5)])] [(5, ("r", "alice"))],
       [], [("r", Out.newMessage (JoinedRow.mk 1 "m0" 10 1 "alice"))]⟩ := by
  decide

/-- C6: appending `m1, m2, m3` to a room in sequence (timestamps supplied by
a nondecreasing wall clock, authors existing) extends the room's rows in
exactly that order with strictly increasing AUTOINCREMENT ids (the
monotonically-increasing-per-room ordering key); fetching history with no
limit returns all rows oldest first in exactly the appended order, and with
limit `L > 0` returns the most recent `L` rows, still oldest first. -/
theorem c6_history_ordering (db : DB) (rid : Nat) (u1 u2 u3 : Nat)
    (c1 c2 c3 : String) (t1 t2 t3 : Nat) (usr1 usr2 usr3 : UserRow)
    (hu1 : db.users.find? (fun x => x.id == u1) = some usr1)
    (hu2 : db.users.find? (fun x => x.id == u2) = some usr2)
    (hu3 : db.users.find? (fun x => x.id == u3) = some usr3)
    (hsorted : tsSorted (db.joinedRows rid))
    (hle : ∀ x ∈ db.joinedRows rid, x.timestamp ≤ t1)
    (h12 : t1 ≤ t2) (h23 : t2 ≤ t3)
    (hcount : (db.roomRows rid).length = (db.joinedRows rid).length)
    (hids : (db.roomRows rid).Pairwise (fun a b => a.id < b.id))
    (hlt : ∀ m ∈ db.roomRows rid, m.id < db.nextMsgId) :
    (((db.insertMessage u1 rid c1 t1 false).insertMessage u2 rid c2 t2
        false).insertMessage u3 rid c3 t3 false).roomRows rid =
      db.roomRows rid ++
        [MsgRow.mk db.nextMsgId u1 rid c1 t1,
         MsgRow.mk (db.nextMsgId + 1) u2 rid c2 t2,
         MsgRow.mk (db.nextMsgId + 2) u3 rid c3 t3] ∧
    ((((db.insertMessage u1 rid c1 t1 false).insertMessage u2 rid c2 t2
        false).insertMessage u3 rid c3 t3 false).roomRows rid).Pairwise
      (fun a b => a.id < b.id) ∧
    (((db.insertMessage u1 rid c1 t1 false).insertMessage u2 rid c2 t2
        false).insertMessage u3 rid c3 t3 false).getRoomMessages rid none =
      db.joinedRows rid ++
        [JoinedRow.mk db.nextMsgId c1 t1 u1 usr1.username,
         JoinedRow.mk (db.nextMsgId + 1) c2 t2 u2 usr2.username,
         JoinedRow.mk (db.nextMsgId + 2) c3 t3 u3 usr3.username] ∧
    ∀ L, L ≠ 0 →
      (((db.insertMessage u1 rid c1 t1 false).insertMessage u2 rid c2 t2
          false).insertMessage u3 rid c3 t3 false).getRoomMessages rid
        (some L) =
      (db.joinedRows rid ++
        [JoinedRow.mk db.nextMsgId c1 t1 u1 usr1.username,
         JoinedRow.mk (db.nextMsgId + 1) c2 t2 u2 usr2.username,
         JoinedRow.mk (db.nextMsgId + 2) c3 t3 u3 usr3.username]).drop
        ((db.joinedRows rid ++
          [JoinedRow.mk db.nextMsgId c1 t1 u1 usr1.username,
           JoinedRow.mk (db.nextMsgId + 1) c2 t2 u2 usr2.username,
           JoinedRow.mk (db.nextMsgId + 2) c3 t3 u3 usr3.username]).length - L) := by
  have hr1 := roomRows_insert db u1 rid c1 t1
  have hr2 := roomRows_insert (db.insertMessage u1 rid c1 t1 false) u2 rid c2 t2
  have hr3 := roomRows_insert
    ((db.insertMessage u1 rid c1 t1 false).insertMessage u2 rid c2 t2 false)
    u3 rid c3 t3
  have hrooms : (((db.insertMessage u1 rid c1 t1 false).insertMessage u2 rid c2
      t2 false).insertMessage u3 rid c3 t3 false).roomRows rid =
      db.roomRows rid ++
        [MsgRow.mk db.nextMsgId u1 rid c1 t1,
         MsgRow.mk (db.nextMsgId + 1) u2 rid c2 t2,
         MsgRow.mk (db.nextMsgId + 2) u3 rid c3 t3] := by
    rw [hr3, hr2, hr1]
    simp only [show (db.insertMessage u1 rid c1 t1 false).nextMsgId =
        db.nextMsgId + 1 from rfl,
      show ((db.insertMessage u1 rid c1 t1 false).insertMessage u2 rid c2 t2
        false).nextMsgId = db.nextMsgId + 2 from rfl, List.append_assoc,
      List.cons_append, List.nil_append]
  have hj1 := joinedRows_insert db u1 rid c1 t1 usr1 hu1
  have hj2 := joinedRows_insert (db.insertMessage u1 rid c1 t1 false) u2 rid
    c2 t2 usr2 hu2
  have hj3 := joinedRows_insert
    ((db.insertMessage u1 rid c1 t1 false).insertMessage u2 rid c2 t2 false)
    u3 rid c3 t3 usr3 hu3
  have hjoined : (((db.insertMessage u1 rid c1 t1 false).insertMessage u2 rid
      c2 t2 false).insertMessage u3 rid c3 t3 false).joinedRows rid =
      db.joinedRows rid ++
        [JoinedRow.mk db.nextMsgId c1 t1 u1 usr1.username,
         JoinedRow.mk (db.nextMsgId + 1) c2 t2 u2 usr2.username,
         JoinedRow.mk (db.nextMsgId + 2) c3 t3 u3 usr3.username] := by
    rw [hj3, hj2, hj1]
    simp only [show (db.insertMessage u1 rid c1 t1 false).nextMsgId =
        db.nextMsgId + 1 from rfl,
      show ((db.insertMessage u1 rid c1 t1 false).insertMessage u2 rid c2 t2
        false).nextMsgId = db.nextMsgId + 2 from rfl, List.append_assoc,
      List.cons_append, List.nil_append]
  have hsorted3 : tsSorted ((((db.insertMessage u1 rid c1 t1
      false).insertMessage u2 rid c2 t2 false).insertMessage u3 rid c3 t3
      false).joinedRows rid) := by
    rw [hjoined]
    unfold tsSorted
    rw [List.pairwise_append]
    refine ⟨hsorted, ?_, ?_⟩
    · refine List.Pairwise.cons ?_ (List.Pairwise.cons ?_
        (List.Pairwise.cons (fun b hb => absurd hb (List.not_mem_nil b))
          List.Pairwise.nil))
      · intro b hb
        rcases List.mem_cons.mp hb with rfl | hb2
        · exact h12
        rcases List.mem_cons.mp hb2 with rfl | hb3
        · exact le_trans h12 h23
        · cases hb3
      · intro b hb
        rcases List.mem_cons.mp hb with rfl | hb2
        · exact h23
        · cases hb2
    · intro x hx y hy
      have hx1 := hle x hx
      simp only [List.mem_cons, List.not_mem_nil, or_false] at hy
      rcases hy with rfl | rfl | rfl
      · exact hx1
      · exact le_trans hx1 h12
      · exact le_trans hx1 (le_trans h12 h23)
  have hcount3 : ((((db.insertMessage u1 rid c1 t1 false).insertMessage u2 rid
      c2 t2 false).insertMessage u3 rid c3 t3 false).roomRows rid).length =
      ((((db.insertMessage u1 rid c1 t1 false).insertMessage u2 rid c2 t2
      false).insertMessage u3 rid c3 t3 false).joinedRows rid).length := by
    rw [hrooms, hjoined]
    simp [hcount]
  refine ⟨hrooms, ?_, ?_, ?_⟩
  · rw [hrooms]
    rw [List.pairwise_append]
    refine ⟨hids, ?_, ?_⟩
    · refine List.Pairwise.cons ?_ (List.Pairwise.cons ?_
        (List.Pairwise.cons (fun b hb => absurd hb (List.not_mem_nil b))
          List.Pairwise.nil))
      · intro b hb
        rcases List.mem_cons.mp hb with rfl | hb2
        · show db.nextMsgId < db.nextMsgId + 1
          omega
        rcases List.mem_cons.mp hb2 with rfl | hb3
        · show db.nextMsgId < db.nextMsgId + 2
          omega
        · cases hb3
      · intro b hb
        rcases List.mem_cons.mp hb with rfl | hb2
        · show db.nextMsgId + 1 < db.nextMsgId + 2
          omega
        · cases hb2
    · intro x hx y hy
      have hx1 := hlt x hx
      simp only [List.mem_cons, List.not_mem_nil, or_false] at hy
      rcases hy with rfl | rfl | rfl
      · exact hx1
      · show x.id < db.nextMsgId + 1
        omega
      · show x.id < db.nextMsgId + 2
        omega
  · rw [getRoomMessages_none _ _ hsorted3]
    exact hjoined
  · intro L hL
    rw [getRoomMessages_limit _ _ L hL hsorted3 hcount3]
    rw [hjoined]

/-- C6 (witness): from an empty store, append `"m1"`, `"m2"`, `"m3"` (the
first two sharing a CURRENT_TIMESTAMP second); the full fetch returns them
in append order and `limit = 2` returns the most recent two, oldest
first. -/
theorem c6_witness :
    ((((DB.mk [UserRow.mk 1 "alice"] [RoomRow.mk 1 "r"] [] 1).insertMessage
        1 1 "m1" 5 false).insertMessage 1 1 "m2" 5 false).insertMessage
        1 1 "m3" 6 false).getRoomMessages 1 none =
      (DB.mk [UserRow.mk 1 "alice"] [RoomRow.mk 1 "r"] [] 1).joinedRows 1 ++
        [JoinedRow.mk 1 "m1" 5 1 "alice", JoinedRow.mk 2 "m2" 5 1 "alice",
         JoinedRow.mk 3 "m3" 6 1 "alice"] ∧
    ((((DB.mk [UserRow.mk 1 "alice"] [RoomRow.mk 1 "r"] [] 1).insertMessage
        1 1 "m1" 5 false).insertMessage 1 1 "m2" 5 false).insertMessage
        1 1 "m3" 6 false).getRoomMessages 1 (some 2) =
      ((DB.mk [UserRow.mk 1 "alice"] [RoomRow.mk 1 "r"] [] 1).joinedRows 1 ++
        [JoinedRow.mk 1 "m1" 5 1 "alice", JoinedRow.mk 2 "m2" 5 1 "alice",
         JoinedRow.mk 3 "m3" 6 1 "alice"]).drop
        (((DB.mk [UserRow.mk 1 "alice"] [RoomRow.mk 1 "r"] [] 1).joinedRows 1 ++
          [JoinedRow.mk 1 "m1" 5 1 "alice", JoinedRow.mk 2 "m2" 5 1 "alice",
           JoinedRow.mk 3 "m3" 6 1 "alice"]).length - 2) ∧
    ((DB.mk [UserRow.mk 1 "alice"] [RoomRow.mk 1 "r"] [] 1).joinedRows 1 ++
        [JoinedRow.mk 1 "m1" 5 1 "alice", JoinedRow.mk 2 "m2" 5 1 "alice",
         JoinedRow.mk 3 "m3" 6 1 "alice"]).drop
        (((DB.mk [UserRow.mk 1 "alice"] [RoomRow.mk 1 "r"] [] 1).joinedRows 1 ++
          [JoinedRow.mk 1 "m1" 5 1 "alice", JoinedRow.mk 2 "m2" 5 1 "alice",
           JoinedRow.mk 3 "m3" 6 1 "alice"]).length - 2) =
      [JoinedRow.mk 2 "m2" 5 1 "alice", JoinedRow.mk 3 "m3" 6 1 "alice"] := by
  have h := c6_history_ordering
    (DB.mk [UserRow.mk 1 "alice"] [RoomRow.mk 1 "r"] [] 1) 1 1 1 1
    "m1" "m2" "m3" 5 5 6 (UserRow.mk 1 "alice") (UserRow.mk 1 "alice")
    (UserRow.mk 1 "alice") (by decide) (by decide) (by decide)
    (by unfold tsSorted; decide) (by decide) (by decide) (by decide)
    (by decide) (by decide) (by decide)
  exact ⟨h.2.2.1, h.2.2.2 2 (by decide), by decide⟩

/-- C10: `MessageService.get_room_messages` tests `limit` for truthiness
(`if limit:` at `messageService.py:56`), so `limit = 0` — like
`limit = None` — takes the unlimited branch and returns every message of
the room (never zero messages when the room has any). -/
theorem c10_limit_zero_returns_all (db : DB) (rid : Nat) :
    db.getRoomMessages rid (some 0) = db.getRoomMessages rid none ∧
    (db.getRoomMessages rid (some 0)).length = (db.joinedRows rid).length ∧
    (db.joinedRows rid ≠ [] → db.getRoomMessages rid (some 0) ≠ []) := by
  have hz := getRoomMessages_zero db rid
  have hlen : (db.getRoomMessages rid none).length =
      (db.joinedRows rid).length := by
    unfold DB.getRoomMessages
    simp [pyTruthyLimit, length_sortByTs]
  refine ⟨hz, by rw [hz]; exact hlen, ?_⟩
  intro hne hcontra
  rw [hz] at hcontra
  have hx := hlen
  rw [hcontra] at hx
  simp at hx
  exact hne (List.eq_nil_of_length_eq_zero hx.symm)

/-- C10 (witness): a room holding exactly one message: `limit = 0` returns
that one message (all of them), not zero messages. -/
theorem c10_witness :
    (DB.mk [UserRow.mk 1 "alice"] [RoomRow.mk 1 "r"]
        [MsgRow.mk 1 1 1 "m0" 10] 2).getRoomMessages 1 (some 0) =
      (DB.mk [UserRow.mk 1 "alice"] [RoomRow.mk 1 "r"]
        [MsgRow.mk 1 1 1 "m0" 10] 2).getRoomMessages 1 none ∧
    (DB.mk [UserRow.mk 1 "alice"] [RoomRow.mk 1 "r"]
        [MsgRow.mk 1 1 1 "m0" 10] 2).getRoomMessages 1 (some 0) ≠ [] ∧
    (DB.mk [UserRow.mk 1 "alice"] [RoomRow.mk 1 "r"]
        [MsgRow.mk 1 1 1 "m0" 10] 2).getRoomMessages 1 (some 0) =
      [JoinedRow.mk 1 "m0" 10 1 "alice"] := by
  have h := c10_limit_zero_returns_all
    (DB.mk [UserRow.mk 1 "alice"] [RoomRow.mk 1 "r"]
      [MsgRow.mk 1 1 1 "m0" 10] 2) 1
  exact ⟨h.1, h.2.2 (by decide), by decide⟩

end AeroStream
